import Mathlib

/-! korea-stock-mcp: the extraction and dispatch layer of `src/index.js`.

A shallow embedding of the five extractors (`getStockFromNaver`, `searchStock`,
`getMarketCapRanking`, `getTradingVolumeRanking`, `getOHLCV`) and of the
`CallToolRequestSchema` handler, followed by the properties stated for them.

Conventions of the embedding.

* A JavaScript string is the list of its UTF-16 code units (`JSString`), so that
  `.length`, `.substring`, `.trim` and regular expressions without the `u` flag
  act on it exactly as in the source.
* A JavaScript number produced by `parseInt` is a `JSNumber`: `NaN`, an integer
  that a double represents, or an infinity.  `-0` is identified with `0` (both
  are falsy and compare equal, which is all the source observes of them).
* `axios.get` followed by `cheerio.load` and a selector query is the `fetch`
  field of `Env`: it fails with the message of the error, or yields the
  `Document` whose fields are the node lists the selectors of the source match.
* An `async` function is a function to `Traced (Except JSString α)`: the value it
  resolves to or the message of the `Error` it rejects with, paired with the
  URLs it requested, in order.
-/

set_option maxRecDepth 8000

namespace KoreaStock

/-! ## Strings -/

/-- A JavaScript string: its UTF-16 code units. -/
abbrev JSString := List Nat

/-- The UTF-16 code units of one Unicode scalar value. -/
def utf16Units (c : Char) : List Nat :=
  if c.toNat < 65536 then [c.toNat]
  else [55296 + (c.toNat - 65536) / 1024, 56320 + (c.toNat - 65536) % 1024]

/-- The JavaScript string written by a literal of the source. -/
def utf16 (s : String) : JSString := s.toList.flatMap utf16Units

/-- Code units that `String.prototype.trim` and `parseInt` treat as white space
(ECMAScript `WhiteSpace` and `LineTerminator`). -/
def isWhiteSpace (c : Nat) : Bool :=
  c == 9 || c == 10 || c == 11 || c == 12 || c == 13 || c == 32 || c == 160 ||
  c == 5760 || (8192 ≤ c && c ≤ 8202) || c == 8232 || c == 8233 || c == 8239 ||
  c == 8287 || c == 12288 || c == 65279

/-- The decimal digits `0`..`9`, which is what `\d` matches without the `u` flag. -/
def isDigit (c : Nat) : Bool := 48 ≤ c && c ≤ 57

/-- The code unit of `,`. -/
def comma : Nat := 44

/-- The code unit of `|`. -/
def pipe : Nat := 124

/-- The method `String.prototype.trim`. -/
def trim (s : JSString) : JSString :=
  ((s.dropWhile isWhiteSpace).reverse.dropWhile isWhiteSpace).reverse

/-- The call `s.replace(/,/g, '')`. -/
def stripCommas (s : JSString) : JSString := s.filter (fun c => c != comma)

/-- The call `s.includes(pat)`. -/
def includes (pat : JSString) : JSString → Bool
  | [] => pat.isPrefixOf []
  | c :: cs => pat.isPrefixOf (c :: cs) || includes pat cs

/-- The call `s.split('|')`: the fields between the separators, always at least one. -/
def splitPipe : JSString → List JSString
  | [] => [[]]
  | c :: cs =>
    if c = pipe then [] :: splitPipe cs
    else
      match splitPipe cs with
      | [] => [[c]]
      | f :: fs => (c :: f) :: fs

/-- The call `s.substring(0, n)`. -/
def substring0 (n : Nat) (s : JSString) : JSString := s.take n

/-- The call `s.padStart(n)`: spaces in front up to `n` code units. -/
def padStart (n : Nat) (s : JSString) : JSString := List.replicate (n - s.length) 32 ++ s

/-- The call `s.padEnd(n)`: spaces behind up to `n` code units. -/
def padEnd (n : Nat) (s : JSString) : JSString := s ++ List.replicate (n - s.length) 32

/-- The capture group of the first match of `/code=(\d+)/` in `s` (`s.match(...)?.[1]`):
the leftmost place where `code=` is followed by a digit, and the longest run of
digits there. -/
def matchCode : JSString → Option JSString
  | [] => none
  | c :: cs =>
    if (utf16 "code=").isPrefixOf (c :: cs) ∧ ((c :: cs).drop 5).takeWhile isDigit ≠ [] then
      some (((c :: cs).drop 5).takeWhile isDigit)
    else matchCode cs

/-! ## Numbers -/

/-- The values `parseInt` can return. -/
inductive JSNumber where
  | nan : JSNumber
  | fin (z : Int) : JSNumber
  | posInf : JSNumber
  | negInf : JSNumber
  deriving DecidableEq

/-- The least `e` from the start value on with `n < 2 ^ (53 + e)`, searched with fuel. -/
def excessBits : Nat → Nat → Nat → Nat
  | 0, _, e => e
  | fuel + 1, n, e => if n < 2 ^ (53 + e) then e else excessBits fuel n (e + 1)

/-- The bound `2 ^ 1024` from which a rounded magnitude is an infinity. -/
def doubleLimit : Nat := (2 ^ 256) ^ 4

/-- The double nearest to the natural number `n` (ties to even, 53 significant
bits), as a natural number; `none` when it overflows to infinity. -/
def roundToDouble (n : Nat) : Option Nat :=
  let e := excessBits n n 0
  let q := n / 2 ^ e
  let r := n % 2 ^ e
  let q1 := if 2 ^ e < 2 * r ∨ (2 * r = 2 ^ e ∧ q % 2 = 1) then q + 1 else q
  if q1 * 2 ^ e < doubleLimit then some (q1 * 2 ^ e) else none

/-- The value of a digit of radix up to 16, or `none`. -/
def digitValue (radix : Nat) (c : Nat) : Option Nat :=
  let v :=
    if 48 ≤ c ∧ c ≤ 57 then c - 48
    else if 97 ≤ c ∧ c ≤ 102 then c - 87
    else if 65 ≤ c ∧ c ≤ 70 then c - 55
    else 16
  if v < radix then some v else none

/-- The longest prefix of digits of the radix, as their values. -/
def leadingDigits (radix : Nat) : JSString → List Nat
  | [] => []
  | c :: cs =>
    match digitValue radix c with
    | some v => v :: leadingDigits radix cs
    | none => []

/-- The number written by digit values, most significant first. -/
def digitsValue (radix : Nat) (ds : List Nat) : Nat :=
  ds.foldl (fun acc d => acc * radix + d) 0

/-- Steps 6 to 16 of `parseInt` on the text that follows the sign. -/
def parseMagnitude (s : JSString) : Option (Option Nat) :=
  let hex := (utf16 "0x").isPrefixOf s || (utf16 "0X").isPrefixOf s
  let radix := if hex then 16 else 10
  let body := if hex then s.drop 2 else s
  match leadingDigits radix body with
  | [] => none
  | d :: ds => some (roundToDouble (digitsValue radix (d :: ds)))

/-- The call `parseInt(s)` with no radix argument, on a string. -/
def parseInt (s : JSString) : JSNumber :=
  let t := s.dropWhile isWhiteSpace
  let neg := (utf16 "-").isPrefixOf t
  let body := if (utf16 "-").isPrefixOf t || (utf16 "+").isPrefixOf t then t.drop 1 else t
  match parseMagnitude body with
  | none => .nan
  | some none => if neg then .negInf else .posInf
  | some (some m) => if neg then .fin (-(m : Int)) else .fin m

/-- The call `parseInt(x)` where `x` may be `undefined`, which `parseInt` reads as the
string `"undefined"`. -/
def parseIntArg : Option JSString → JSNumber
  | some s => parseInt s
  | none => parseInt (utf16 "undefined")

/-- The expression `x || 0` on a number: `NaN` and zero are falsy. -/
def orZero : JSNumber → JSNumber
  | .nan => .fin 0
  | .fin 0 => .fin 0
  | x => x

/-- The expression `s || '0'` on a string: the empty string is falsy. -/
def orZeroText (s : JSString) : JSString := if s = [] then utf16 "0" else s

/-- The comparison `a <= b` on numbers: false as soon as one side is `NaN`. -/
def JSNumber.le : JSNumber → JSNumber → Bool
  | .nan, _ => false
  | _, .nan => false
  | .negInf, _ => true
  | _, .posInf => true
  | .fin a, .fin b => decide (a ≤ b)
  | _, _ => false

/-- The comparison `a >= 0` on numbers. -/
def JSNumber.nonneg : JSNumber → Bool
  | .fin z => decide (0 ≤ z)
  | .posInf => true
  | _ => false

/-! ## Documents and the environment -/

/-- An element with an optional `href` attribute and its text content: a node
matched by `.tltle`, or an `a` inside a table cell. -/
structure LinkNode where
  href : Option JSString
  text : JSString
  deriving DecidableEq

/-- A `td` of a ranking table: its text content and the `a` elements inside it. -/
structure Cell where
  text : JSString
  anchors : List LinkNode
  deriving DecidableEq

/-- A `tr` of a ranking table: its `td` descendants, in document order. -/
structure Row where
  tds : List Cell
  deriving DecidableEq

/-- An `item` node of the chart feed with its optional `data` attribute. -/
structure Item where
  data : Option JSString
  deriving DecidableEq

/-- What the selectors of the source match in a loaded page, each a list in
document order: the texts of `.wrap_company h2 a`, of `.no_today .blind`, of
`.no_exday .blind` and of `.rate_info .blind`, the `.tltle` nodes, the
`table.type_2 tr` rows and the `item` nodes. -/
structure Document where
  wrapCompany : List JSString
  noToday : List JSString
  noExday : List JSString
  rateInfo : List JSString
  tltle : List LinkNode
  rows : List Row
  items : List Item
  deriving DecidableEq

/-- The text of a selection: the concatenation of the texts of its elements. -/
def selText (sel : List JSString) : JSString := sel.flatten

/-- The text of `sel.eq(i)` (`sel.first()` is `sel.eq(0)`): empty when there is no
such element. -/
def eqText (sel : List JSString) (i : Nat) : JSString := (sel.get? i).getD []

/-- The text of `$(tds[i])`: empty when the row has no such cell. -/
def cellText (tds : List Cell) (i : Nat) : JSString :=
  match tds.get? i with
  | some c => c.text
  | none => []

/-- The host the handlers run on: the network and the built-ins of the platform
whose result depends on Unicode tables or on the locale. -/
structure Env where
  fetch : JSString → Except JSString Document
  encodeURIComponent : JSString → Except JSString JSString
  toLowerCase : JSString → JSString
  toUpperCase : JSString → JSString
  numberToString : JSNumber → JSString
  toLocaleString : JSNumber → JSString

/-- Cheerio's `sel.each(callback)` from node index `i` on: the callback sees the
index, the node and the variables it closes over, and its first component
`false` (a callback that returns `false`) ends the iteration. -/
def eachFrom {α σ : Type} (callback : Nat → α → σ → Bool × σ) : List α → Nat → σ → σ
  | [], _, s => s
  | x :: xs, i, s =>
    match callback i x s with
    | (false, s1) => s1
    | (true, s1) => eachFrom callback xs (i + 1) s1

/-- Cheerio's `sel.each(callback)`. -/
def each {α σ : Type} (callback : Nat → α → σ → Bool × σ) (sel : List α) (s : σ) : σ :=
  eachFrom callback sel 0 s

/-- A computation together with the URLs it requested, in order. -/
abbrev Traced (α : Type) := α × List JSString

/-! ## `getStockFromNaver` -/

/-- The record `getStockFromNaver` resolves to. -/
structure Quote where
  code : JSString
  name : JSString
  price : JSNumber
  change : JSNumber
  changeRate : JSString
  open_ : JSNumber
  high : JSNumber
  low : JSNumber
  volume : JSNumber
  deriving DecidableEq

/-- The body of `getStockFromNaver` after `cheerio.load` (source lines 32 to 61). -/
def quoteOfDocument (doc : Document) (code : JSString) : Quote :=
  let stockName := trim (selText doc.wrapCompany)
  let price := stripCommas (trim (eqText doc.noToday 0))
  let change := stripCommas (trim (eqText doc.noExday 0))
  let changeRate := trim (eqText doc.noExday 1)
  let todayData := doc.rateInfo
  let open_ := orZeroText (stripCommas (trim (eqText todayData 0)))
  let high := orZeroText (stripCommas (trim (eqText todayData 1)))
  let low := orZeroText (stripCommas (trim (eqText todayData 2)))
  let volume := orZeroText (stripCommas (trim (eqText doc.rateInfo 3)))
  { code := code
    name := stockName
    price := orZero (parseInt price)
    change := orZero (parseInt change)
    changeRate := if changeRate = [] then utf16 "0%" else changeRate
    open_ := orZero (parseInt open_)
    high := orZero (parseInt high)
    low := orZero (parseInt low)
    volume := orZero (parseInt volume) }

/-- The URL of an instrument's detail page. -/
def quoteUrl (code : JSString) : JSString :=
  utf16 "https://finance.naver.com/item/main.naver?code=" ++ code

/-- The function `getStockFromNaver(code)` (source lines 20 to 65): every error
of the `try` block is rethrown with the marker of the quote operation. -/
def getStockFromNaver (env : Env) (code : JSString) : Traced (Except JSString Quote) :=
  match env.fetch (quoteUrl code) with
  | .error message => (.error (utf16 "네이버 금융 API 오류: " ++ message), [quoteUrl code])
  | .ok doc => (.ok (quoteOfDocument doc code), [quoteUrl code])

/-! ## `searchStock` -/

/-- An entry of the list `searchStock` resolves to. -/
structure SearchResult where
  code : JSString
  name : JSString
  deriving DecidableEq

/-- The callback of `$('.tltle').each` past its index test (source lines 87 to 94):
the list `results` after the node `elem`. -/
def searchVisit (elem : LinkNode) (results : List SearchResult) : List SearchResult :=
  match elem.href with
  | none => results
  | some link =>
    if link ≠ [] ∧ includes (utf16 "code=") link = true then
      match matchCode link with
      | none => results
      | some code =>
        let name := trim elem.text
        if code ≠ [] ∧ name ≠ [] then results ++ [{ code := code, name := name }]
        else results
    else results

/-- The callback of `$('.tltle').each` (source lines 84 to 95): at node index `i`
it returns `false` when `i >= 10`, which ends the iteration. -/
def searchCallback (i : Nat) (elem : LinkNode) (results : List SearchResult) :
    Bool × List SearchResult :=
  if i ≥ 10 then (false, results) else (true, searchVisit elem results)

/-- The body of `searchStock` after `cheerio.load` (source lines 81 to 97). -/
def searchResultsOfDocument (doc : Document) : List SearchResult :=
  each searchCallback doc.tltle []

/-- The URL of a name search, from the percent-encoded keyword. -/
def searchUrl (encoded : JSString) : JSString :=
  utf16 "https://finance.naver.com/search/searchList.naver?query=" ++ encoded

/-- The function `searchStock(keyword)` (source lines 70 to 101). -/
def searchStock (env : Env) (keyword : JSString) : Traced (Except JSString (List SearchResult)) :=
  match env.encodeURIComponent keyword with
  | .error message => (.error (utf16 "종목 검색 오류: " ++ message), [])
  | .ok encoded =>
    match env.fetch (searchUrl encoded) with
    | .error message => (.error (utf16 "종목 검색 오류: " ++ message), [searchUrl encoded])
    | .ok doc => (.ok (searchResultsOfDocument doc), [searchUrl encoded])

/-! ## `getMarketCapRanking` and `getTradingVolumeRanking` -/

/-- An entry of the list `getMarketCapRanking` resolves to. -/
structure MarketCapEntry where
  rank : JSNumber
  code : JSString
  name : JSString
  price : JSNumber
  marketCap : JSString
  deriving DecidableEq

/-- An entry of the list `getTradingVolumeRanking` resolves to. -/
structure VolumeEntry where
  rank : JSNumber
  code : JSString
  name : JSString
  price : JSNumber
  volume : JSString
  deriving DecidableEq

/-- The text of `$(tds[1]).find('a')`: the texts of the anchors of the second cell. -/
def nameElemText (tds : List Cell) : JSString :=
  match tds.get? 1 with
  | some c => selText (c.anchors.map (fun a => a.text))
  | none => []

/-- The value of `$(tds[1]).find('a').attr('href')`: the attribute of the first
anchor of the second cell. -/
def nameElemHref (tds : List Cell) : Option JSString :=
  match tds.get? 1 with
  | some c =>
    match c.anchors with
    | a :: _ => a.href
    | [] => none
  | none => none

/-- The value of `href?.match(/code=(\d+)/)?.[1]`. -/
def codeOfHref : Option JSString → Option JSString
  | some href => matchCode href
  | none => none

/-- The callback of the loop of `getMarketCapRanking` (source lines 122 to 146). -/
def marketCapCallback (limit : Int) (_i : Nat) (elem : Row) (results : List MarketCapEntry) :
    Bool × List MarketCapEntry :=
  if (results.length : Int) ≥ limit then (false, results)
  else
    let tds := elem.tds
    if tds.length < 2 then (true, results)
    else
      let rank := trim (cellText tds 0)
      let name := trim (nameElemText tds)
      let price := stripCommas (trim (cellText tds 2))
      let marketCap := trim (cellText tds 6)
      match codeOfHref (nameElemHref tds) with
      | none => (true, results)
      | some code =>
        if code ≠ [] ∧ name ≠ [] ∧ rank ≠ [] then
          (true, results ++ [{ rank := parseInt rank, code := code, name := name,
                               price := orZero (parseInt price), marketCap := marketCap }])
        else (true, results)

/-- The callback of the loop of `getTradingVolumeRanking` (source lines 172 to 196). -/
def volumeCallback (limit : Int) (_i : Nat) (elem : Row) (results : List VolumeEntry) :
    Bool × List VolumeEntry :=
  if (results.length : Int) ≥ limit then (false, results)
  else
    let tds := elem.tds
    if tds.length < 2 then (true, results)
    else
      let rank := trim (cellText tds 0)
      let name := trim (nameElemText tds)
      let price := stripCommas (trim (cellText tds 2))
      let volume := trim (cellText tds 5)
      match codeOfHref (nameElemHref tds) with
      | none => (true, results)
      | some code =>
        if code ≠ [] ∧ name ≠ [] ∧ rank ≠ [] then
          (true, results ++ [{ rank := parseInt rank, code := code, name := name,
                               price := orZero (parseInt price), volume := volume }])
        else (true, results)

/-- The value of `sosok`: `'0'` for a market whose lower case is `kospi`, else `'1'`. -/
def sosok (env : Env) (market : JSString) : JSString :=
  if env.toLowerCase market = utf16 "kospi" then utf16 "0" else utf16 "1"

/-- The URL of the capitalisation ranking. -/
def marketCapUrl (env : Env) (market : JSString) : JSString :=
  utf16 "https://finance.naver.com/sise/sise_market_sum.naver?sosok=" ++ sosok env market ++
    utf16 "&page=1"

/-- The URL of the volume ranking. -/
def volumeUrl (env : Env) (market : JSString) : JSString :=
  utf16 "https://finance.naver.com/sise/sise_quant.naver?sosok=" ++ sosok env market

/-- The function `getMarketCapRanking(market, limit)` (source lines 106 to 152). -/
def getMarketCapRanking (env : Env) (market : JSString) (limit : Int) :
    Traced (Except JSString (List MarketCapEntry)) :=
  match env.fetch (marketCapUrl env market) with
  | .error message => (.error (utf16 "시가총액 순위 조회 오류: " ++ message), [marketCapUrl env market])
  | .ok doc => (.ok (each (marketCapCallback limit) doc.rows []), [marketCapUrl env market])

/-- The function `getTradingVolumeRanking(market, limit)` (source lines 157 to 202). -/
def getTradingVolumeRanking (env : Env) (market : JSString) (limit : Int) :
    Traced (Except JSString (List VolumeEntry)) :=
  match env.fetch (volumeUrl env market) with
  | .error message => (.error (utf16 "거래량 순위 조회 오류: " ++ message), [volumeUrl env market])
  | .ok doc => (.ok (each (volumeCallback limit) doc.rows []), [volumeUrl env market])

/-! ## `getOHLCV` -/

/-- An entry of the list `getOHLCV` resolves to; `date` is `none` for `undefined`. -/
structure Candle where
  date : Option JSString
  open_ : JSNumber
  high : JSNumber
  low : JSNumber
  close : JSNumber
  volume : JSNumber
  deriving DecidableEq

/-- The object pushed for a truthy `data` attribute (source lines 227 to 235). -/
def candleOfData (data : JSString) : Candle :=
  let fields := splitPipe data
  { date := (fields.get? 0).map (substring0 8)
    open_ := orZero (parseIntArg (fields.get? 1))
    high := orZero (parseIntArg (fields.get? 2))
    low := orZero (parseIntArg (fields.get? 3))
    close := orZero (parseIntArg (fields.get? 4))
    volume := orZero (parseIntArg (fields.get? 5)) }

/-- The callback of `$('item').each` (source lines 224 to 237); it never ends the
iteration. -/
def candleCallback (_i : Nat) (elem : Item) (items : List Candle) : Bool × List Candle :=
  match elem.data with
  | none => (true, items)
  | some data => if data ≠ [] then (true, items ++ [candleOfData data]) else (true, items)

/-- The URL of the chart feed. -/
def chartUrl (env : Env) (code : JSString) (days : Int) : JSString :=
  utf16 "https://fchart.stock.naver.com/sise.nhn?symbol=" ++ code ++
    utf16 "&timeframe=day&count=" ++ env.numberToString (.fin days) ++ utf16 "&requestType=0"

/-- The function `getOHLCV(code, days)` (source lines 207 to 243). -/
def getOHLCV (env : Env) (code : JSString) (days : Int) : Traced (Except JSString (List Candle)) :=
  match env.fetch (chartUrl env code days) with
  | .error message => (.error (utf16 "차트 데이터 조회 오류: " ++ message), [chartUrl env code days])
  | .ok doc => (.ok (each candleCallback doc.items []), [chartUrl env code days])

/-! ## The `CallToolRequestSchema` handler -/

/-- The `arguments` of a tool call, with the types the tools' `inputSchema`
declare; `none` is an absent argument. -/
structure Args where
  code : Option JSString
  keyword : Option JSString
  days : Option Int
  market : Option JSString
  limit : Option Int
  deriving DecidableEq

/-- The object the handler resolves to: the texts of its `content` items, and
whether it carries `isError: true`. -/
structure ToolResult where
  content : List JSString
  isError : Bool
  deriving DecidableEq

/-- The expression `x || d` on an optional integer: absent and zero are falsy. -/
def intOr (x : Option Int) (d : Int) : Int :=
  match x with
  | some n => if n = 0 then d else n
  | none => d

/-- The expression `x || d` on an optional string: absent and empty are falsy. -/
def textOr (x : Option JSString) (d : JSString) : JSString :=
  match x with
  | some s => if s = [] then d else s
  | none => d

/-- The text of the `get_stock_price` case (source lines 370 to 376). -/
def quoteText (env : Env) (stock : Quote) : JSString :=
  utf16 "📊 " ++ stock.name ++ utf16 " (" ++ stock.code ++ utf16 ")\n\n" ++
  (utf16 "현재가: " ++ env.toLocaleString stock.price ++ utf16 "원\n") ++
  (utf16 "전일대비: " ++ (if stock.change.nonneg then utf16 "+" else []) ++
    env.toLocaleString stock.change ++ utf16 "원 (" ++ stock.changeRate ++ utf16 ")\n") ++
  (utf16 "시가: " ++ env.toLocaleString stock.open_ ++ utf16 "원\n") ++
  (utf16 "고가: " ++ env.toLocaleString stock.high ++ utf16 "원\n") ++
  (utf16 "저가: " ++ env.toLocaleString stock.low ++ utf16 "원\n") ++
  (utf16 "거래량: " ++ env.toLocaleString stock.volume ++ utf16 "주\n")

/-- The text of the `search_stock` case for a non-empty list (source lines 400 to 403). -/
def searchText (keyword : JSString) (results : List SearchResult) : JSString :=
  results.foldl (fun text r => text ++ (r.code ++ utf16 ": " ++ r.name ++ utf16 "\n"))
    (utf16 "🔍 '" ++ keyword ++ utf16 "' 검색 결과\n\n")

/-- One line of the chart table (source lines 432 to 433); `none` when `date` is
`undefined`, where `date.slice` throws. -/
def candleLine (env : Env) (c : Candle) : Option JSString :=
  match c.date with
  | none => none
  | some date =>
    let formattedDate :=
      date.take 4 ++ utf16 "-" ++ (date.drop 4).take 2 ++ utf16 "-" ++ (date.drop 6).take 2
    some (formattedDate ++ utf16 " | " ++ padStart 6 (env.toLocaleString c.open_) ++
      utf16 " | " ++ padStart 6 (env.toLocaleString c.high) ++
      utf16 " | " ++ padStart 6 (env.toLocaleString c.low) ++
      utf16 " | " ++ padStart 6 (env.toLocaleString c.close) ++
      utf16 " | " ++ env.toLocaleString c.volume ++ utf16 "\n")

/-- The `recent.forEach` of the chart case: the text with the lines appended, or
the message of the `TypeError` of a `date` that is `undefined`. -/
def chartLines (env : Env) : List Candle → JSString → Except JSString JSString
  | [], text => .ok text
  | c :: cs, text =>
    match candleLine env c with
    | none => .error (utf16 "Cannot read properties of undefined (reading 'slice')")
    | some line => chartLines env cs (text ++ line)

/-- The text of the `get_stock_chart` case (source lines 425 to 434). -/
def chartText (env : Env) (code : JSString) (days : Int) (data : List Candle) :
    Except JSString JSString :=
  let recent := data.drop (data.length - 5)
  chartLines env recent
    (utf16 "📈 " ++ code ++ utf16 " 일봉 차트 (최근 " ++ env.numberToString (.fin days) ++
      utf16 "일 중 최근 5일)\n\n" ++
      utf16 "날짜     | 시가   | 고가   | 저가   | 종가   | 거래량\n" ++
      (List.replicate 60 45 ++ utf16 "\n"))

/-- The text of the `get_market_cap` case (source lines 447 to 453). -/
def marketCapText (env : Env) (market : JSString) (limit : Int)
    (results : List MarketCapEntry) : JSString :=
  results.foldl
    (fun text r => text ++ (padStart 3 (env.numberToString r.rank) ++ utf16 " | " ++ r.code ++
      utf16 " | " ++ padEnd 18 r.name ++ utf16 " | " ++ padStart 9 (env.toLocaleString r.price) ++
      utf16 " | " ++ r.marketCap ++ utf16 "\n"))
    (utf16 "💰 " ++ env.toUpperCase market ++ utf16 " 시가총액 순위 (상위 " ++
      env.numberToString (.fin limit) ++ utf16 "개)\n\n" ++
      utf16 "순위 | 종목코드 | 종목명              | 현재가      | 시가총액\n" ++
      (List.replicate 70 45 ++ utf16 "\n"))

/-- The text of the `get_trading_volume` case (source lines 466 to 472). -/
def volumeText (env : Env) (market : JSString) (limit : Int)
    (results : List VolumeEntry) : JSString :=
  results.foldl
    (fun text r => text ++ (padStart 3 (env.numberToString r.rank) ++ utf16 " | " ++ r.code ++
      utf16 " | " ++ padEnd 18 r.name ++ utf16 " | " ++ padStart 9 (env.toLocaleString r.price) ++
      utf16 " | " ++ r.volume ++ utf16 "\n"))
    (utf16 "📊 " ++ env.toUpperCase market ++ utf16 " 거래량 순위 (상위 " ++
      env.numberToString (.fin limit) ++ utf16 "개)\n\n" ++
      utf16 "순위 | 종목코드 | 종목명              | 현재가      | 거래량\n" ++
      (List.replicate 70 45 ++ utf16 "\n"))

/-- The case `get_stock_price` of the handler's `switch` (source lines 362 to 381). -/
def stockPriceCase (env : Env) (args : Args) : Traced (Except JSString JSString) :=
  match args.code with
  | none => (.error (utf16 "6자리 종목 코드를 입력해주세요 (예: 005930)"), [])
  | some code =>
    if code = [] ∨ code.length ≠ 6 then
      (.error (utf16 "6자리 종목 코드를 입력해주세요 (예: 005930)"), [])
    else
      match getStockFromNaver env code with
      | (.error message, urls) => (.error message, urls)
      | (.ok stock, urls) => (.ok (quoteText env stock), urls)

/-- The case `search_stock` of the handler's `switch` (source lines 383 to 408). -/
def searchStockCase (env : Env) (args : Args) : Traced (Except JSString JSString) :=
  match args.keyword with
  | none => (.error (utf16 "검색할 종목명을 입력해주세요"), [])
  | some keyword =>
    if keyword = [] then (.error (utf16 "검색할 종목명을 입력해주세요"), [])
    else
      match searchStock env keyword with
      | (.error message, urls) => (.error message, urls)
      | (.ok results, urls) =>
        if results.length = 0 then
          (.ok (utf16 "❌ '" ++ keyword ++ utf16 "'와 일치하는 종목을 찾을 수 없습니다."), urls)
        else (.ok (searchText keyword results), urls)

/-- The case `get_stock_chart` of the handler's `switch` (source lines 410 to 439). -/
def stockChartCase (env : Env) (args : Args) : Traced (Except JSString JSString) :=
  match args.code with
  | none => (.error (utf16 "6자리 종목 코드를 입력해주세요"), [])
  | some code =>
    if code = [] ∨ code.length ≠ 6 then (.error (utf16 "6자리 종목 코드를 입력해주세요"), [])
    else
      match getOHLCV env code (intOr args.days 30) with
      | (.error message, urls) => (.error message, urls)
      | (.ok data, urls) =>
        if data.length = 0 then (.error (utf16 "차트 데이터를 가져올 수 없습니다"), urls)
        else (chartText env code (intOr args.days 30) data, urls)

/-- The list `results` of the case `get_market_cap` (source lines 442 to 445). -/
def get_market_cap (env : Env) (args : Args) : Traced (Except JSString (List MarketCapEntry)) :=
  getMarketCapRanking env (textOr args.market (utf16 "kospi")) (intOr args.limit 10)

/-- The list `results` of the case `get_trading_volume` (source lines 461 to 464). -/
def get_trading_volume (env : Env) (args : Args) : Traced (Except JSString (List VolumeEntry)) :=
  getTradingVolumeRanking env (textOr args.market (utf16 "kospi")) (intOr args.limit 10)

/-- The case `get_market_cap` of the handler's `switch` (source lines 441 to 458). -/
def marketCapCase (env : Env) (args : Args) : Traced (Except JSString JSString) :=
  match get_market_cap env args with
  | (.error message, urls) => (.error message, urls)
  | (.ok results, urls) =>
    (.ok (marketCapText env (textOr args.market (utf16 "kospi")) (intOr args.limit 10) results),
      urls)

/-- The case `get_trading_volume` of the handler's `switch` (source lines 460 to 477). -/
def tradingVolumeCase (env : Env) (args : Args) : Traced (Except JSString JSString) :=
  match get_trading_volume env args with
  | (.error message, urls) => (.error message, urls)
  | (.ok results, urls) =>
    (.ok (volumeText env (textOr args.market (utf16 "kospi")) (intOr args.limit 10) results),
      urls)

/-- The `try` block of the handler (source lines 361 to 481): the text of the
result it returns, or the message of the error it throws. -/
def handlerBody (env : Env) (name : JSString) (args : Args) : Traced (Except JSString JSString) :=
  if name = utf16 "get_stock_price" then stockPriceCase env args
  else if name = utf16 "search_stock" then searchStockCase env args
  else if name = utf16 "get_stock_chart" then stockChartCase env args
  else if name = utf16 "get_market_cap" then marketCapCase env args
  else if name = utf16 "get_trading_volume" then tradingVolumeCase env args
  else (.error (utf16 "Unknown tool: " ++ name), [])

/-- The handler of `CallToolRequestSchema` (source lines 357 to 493): the `catch`
turns a thrown error into a result flagged `isError`. -/
def callTool (env : Env) (name : JSString) (args : Args) : Traced ToolResult :=
  match handlerBody env name args with
  | (.ok text, urls) => ({ content := [text], isError := false }, urls)
  | (.error message, urls) =>
    ({ content := [utf16 "❌ 오류 발생: " ++ message], isError := true }, urls)

/-! ## Statements of the specification -/

/-- The pair a title-link node stands for, in the words of the specification: its
`code=` digit parameter and its visible text, when it has both a code and a
non-empty name. -/
def searchEntry (node : LinkNode) : Option SearchResult :=
  match node.href with
  | none => none
  | some link =>
    match matchCode link with
    | none => none
    | some code => if trim node.text = [] then none else some { code := code, name := trim node.text }

/-- A numeric text, in the words of the specification: once surrounding white
space and thousands separators are removed, an optional sign followed by one or
more decimal digits, and nothing else. -/
def numericText (t : JSString) : Bool :=
  match stripCommas (trim t) with
  | [] => false
  | c :: rest =>
    if c = 45 ∨ c = 43 then !rest.isEmpty && rest.all isDigit
    else (c :: rest).all isDigit

/-- The text begins, after white space, with an optionally signed decimal digit:
the texts of which `parseInt` can read a leading integer. -/
def beginsWithInteger (s : JSString) : Bool :=
  match s.dropWhile isWhiteSpace with
  | [] => false
  | c :: rest =>
    if c = 45 ∨ c = 43 then
      match rest with
      | [] => false
      | d :: _ => isDigit d
    else isDigit c

/-- A source fragment of a quote page that is absent (`none`) or whose text,
trimmed and without its commas, does not begin with an integer. -/
def noLeadingInteger : Option JSString → Bool
  | none => true
  | some t => !beginsWithInteger (stripCommas (trim t))

/-- A field of a split record that is missing (`none`) or does not begin with an
integer. -/
def unreadableField : Option JSString → Bool
  | none => true
  | some f => !beginsWithInteger f

/-- A string of `,ddd` groups. -/
def groupTail : JSString → Bool
  | [] => true
  | c :: d1 :: d2 :: d3 :: rest =>
    c == comma && isDigit d1 && isDigit d2 && isDigit d3 && groupTail rest
  | _ => false

/-- A decimal digit string grouped with thousands separators: one to three
digits, then groups of a comma and three digits. -/
def thousandsGrouped : JSString → Bool
  | [] => false
  | d1 :: rest1 =>
    isDigit d1 &&
      (groupTail rest1 ||
        match rest1 with
        | [] => false
        | d2 :: rest2 =>
          isDigit d2 &&
            (groupTail rest2 ||
              match rest2 with
              | [] => false
              | d3 :: rest3 => isDigit d3 && groupTail rest3))

/-- A text of digits and commas with at least one digit. -/
def digitsAndCommas (g : JSString) : Bool :=
  g.all (fun c => isDigit c || c == comma) && g.any isDigit

/-- The integer a text denotes once everything but its digits is removed. -/
def denotedValue (t : JSString) : Nat :=
  digitsValue 10 ((t.filter isDigit).map (fun c => c - 48))

/-- A quote page whose only content is the displayed price. -/
def pricePage (price : String) : Document :=
  { wrapCompany := [], noToday := [utf16 price], noExday := [], rateInfo := [], tltle := [],
    rows := [], items := [] }

/-- The Candle of an `item` node that carries a non-empty `data` attribute. -/
def candleOfItem (it : Item) : Option Candle :=
  match it.data with
  | none => none
  | some data => if data = [] then none else some (candleOfData data)

/-- An 8-character date, in the words of the specification: eight decimal digits
whose 4-2-2 segments are a year, a month from 1 to 12 and a day from 1 to 31. -/
def validDate (d : JSString) : Bool :=
  d.length == 8 && d.all isDigit &&
    decide (1 ≤ digitsValue 10 (((d.drop 4).take 2).map (fun c => c - 48))) &&
    decide (digitsValue 10 (((d.drop 4).take 2).map (fun c => c - 48)) ≤ 12) &&
    decide (1 ≤ digitsValue 10 (((d.drop 6).take 2).map (fun c => c - 48))) &&
    decide (digitsValue 10 (((d.drop 6).take 2).map (fun c => c - 48)) ≤ 31)

/-- A chart feed with the given `item` nodes. -/
def feed (items : List Item) : Document :=
  { wrapCompany := [], noToday := [], noExday := [], rateInfo := [], tltle := [], rows := [],
    items := items }

/-- The feed of scenario D: 3 `item` nodes with the same record. -/
def scenarioD : Document :=
  feed [{ data := some (utf16 "20240101|100|110|90|105|500") },
        { data := some (utf16 "20240101|100|110|90|105|500") },
        { data := some (utf16 "20240101|100|110|90|105|500") }]

/-- A feed of 3 `item` nodes whose second has no `data` attribute. -/
def feedWithBareItem : Document :=
  feed [{ data := some (utf16 "20240101|100|110|90|105|500") },
        { data := none },
        { data := some (utf16 "20240102|105|120|100|110|700") }]

/-- A feed whose records begin with a 4-character field and with a month 13. -/
def feedWithOddDates : Document :=
  feed [{ data := some (utf16 "2024|100|110|90|105|500") },
        { data := some (utf16 "20241301|100|110|90|105|500") }]

/-- The ECMAScript line terminators. -/
def isLineTerminator (c : Nat) : Bool := c == 10 || c == 13 || c == 8232 || c == 8233

/-- A text on a single line: it holds no line terminator. -/
def singleLine (t : JSString) : Bool := t.all (fun c => !isLineTerminator c)

/-- The names of the five tools. -/
def toolNames : List JSString :=
  [utf16 "get_stock_price", utf16 "search_stock", utf16 "get_stock_chart",
   utf16 "get_market_cap", utf16 "get_trading_volume"]

/-- Arguments that carry only a code. -/
def codeArgs (code : JSString) : Args :=
  { code := some code, keyword := none, days := none, market := none, limit := none }

/-- A successfully parsed row, in the words of the specification: at least 2
cells, and a non-empty rank, name and code. -/
def validRow (r : Row) : Bool :=
  decide (2 ≤ r.tds.length) && trim (cellText r.tds 0) != [] &&
    trim (nameElemText r.tds) != [] && (codeOfHref (nameElemHref r.tds)).isSome

/-- The capitalisation entry of a row, in the words of the specification: rank
from the first cell, name and code from the link of the second, price from the
third with separators stripped, capitalisation from the seventh as displayed. -/
def marketCapEntry (r : Row) : Option MarketCapEntry :=
  match codeOfHref (nameElemHref r.tds) with
  | none => none
  | some code =>
    if validRow r then
      some { rank := parseInt (trim (cellText r.tds 0)), code := code,
             name := trim (nameElemText r.tds),
             price := orZero (parseInt (stripCommas (trim (cellText r.tds 2)))),
             marketCap := trim (cellText r.tds 6) }
    else none

/-- The volume entry of a row, in the words of the specification: as
`marketCapEntry`, with the traded volume from the sixth cell as displayed. -/
def volumeEntry (r : Row) : Option VolumeEntry :=
  match codeOfHref (nameElemHref r.tds) with
  | none => none
  | some code =>
    if validRow r then
      some { rank := parseInt (trim (cellText r.tds 0)), code := code,
             name := trim (nameElemText r.tds),
             price := orZero (parseInt (stripCommas (trim (cellText r.tds 2)))),
             volume := trim (cellText r.tds 5) }
    else none

/-- The rank a row displays, as the extractors read it. -/
def rowRank (r : Row) : JSNumber := parseInt (trim (cellText r.tds 0))

/-- Every adjacent pair of the list is in `<=` order. -/
def nonDecreasing : List JSNumber → Bool
  | a :: b :: rest => a.le b && nonDecreasing (b :: rest)
  | _ => true

/-- A table row of a fixture: rank, a link to the instrument, price, three
further cells, and the capitalisation. -/
def fixtureRow (rank code name : String) : Row :=
  { tds := [{ text := utf16 rank, anchors := [] },
            { text := utf16 name,
              anchors := [{ href := some (utf16 "/item/main.naver?code=" ++ utf16 code),
                            text := utf16 name }] },
            { text := utf16 "70,000", anchors := [] },
            { text := utf16 "500", anchors := [] },
            { text := utf16 "+0.72%", anchors := [] },
            { text := utf16 "1,234,567", anchors := [] },
            { text := utf16 "4,178,832", anchors := [] }] }

/-- The header row of a ranking table: `th` cells only, no `td`. -/
def headerRow : Row := { tds := [] }

/-- The table of scenario C: a header row and 8 valid rows ranked 1 to 8. -/
def scenarioC : Document :=
  { wrapCompany := [], noToday := [], noExday := [], rateInfo := [], tltle := [], items := []
    rows := [headerRow,
             fixtureRow "1" "247540" "A", fixtureRow "2" "086520" "B",
             fixtureRow "3" "091990" "C", fixtureRow "4" "022100" "D",
             fixtureRow "5" "066970" "E", fixtureRow "6" "028300" "F",
             fixtureRow "7" "196170" "G", fixtureRow "8" "068760" "H"] }

/-- A table whose two valid rows display the ranks 2 and 1, in that order. -/
def descendingTable : Document :=
  { wrapCompany := [], noToday := [], noExday := [], rateInfo := [], tltle := [], items := []
    rows := [headerRow, fixtureRow "2" "000660" "B", fixtureRow "1" "005930" "A"] }

/-- Arguments that carry only a market and a limit. -/
def rankingArgs (market : Option JSString) (limit : Option Int) : Args :=
  { code := none, keyword := none, days := none, market := market, limit := limit }

/-- A page of eleven title links whose first has no `href`. -/
def elevenLinks : Document :=
  { wrapCompany := [], noToday := [], noExday := [], rateInfo := [], rows := [], items := []
    tltle := { href := none, text := utf16 "공지" } ::
      List.replicate 10 { href := some (utf16 "/item/main.naver?code=035720"),
                          text := utf16 "카카오" } }

/-- The page of scenario B: one link with a code, one without. -/
def scenarioB : Document :=
  { wrapCompany := [], noToday := [], noExday := [], rateInfo := [], rows := [], items := []
    tltle := [{ href := some (utf16 "https://finance.naver.com/item/main.naver?code=035720"),
                text := utf16 "카카오" },
              { href := some (utf16 "https://finance.naver.com/item/news.naver"),
                text := utf16 "뉴스" }] }

/-- Decimal digits of a natural number, most significant first, with fuel. -/
def decimalDigits : Nat → Nat → JSString
  | 0, _ => []
  | fuel + 1, n => if n < 10 then [48 + n] else decimalDigits fuel (n / 10) ++ [48 + n % 10]

/-- A rendering of numbers for the fixture hosts: decimal digits without grouping. -/
def plainNumber : JSNumber → JSString
  | .nan => utf16 "NaN"
  | .posInf => utf16 "Infinity"
  | .negInf => utf16 "-Infinity"
  | .fin z => (if z < 0 then utf16 "-" else []) ++ decimalDigits (z.natAbs + 1) z.natAbs

/-- A fixture host whose every request is answered with the document `doc`; its
case mappings act on the ASCII letters. -/
def hostServing (doc : Document) : Env :=
  { fetch := fun _ => .ok doc
    encodeURIComponent := fun s => .ok s
    toLowerCase := fun s => s.map (fun c => if 65 ≤ c ∧ c ≤ 90 then c + 32 else c)
    toUpperCase := fun s => s.map (fun c => if 97 ≤ c ∧ c ≤ 122 then c - 32 else c)
    numberToString := plainNumber
    toLocaleString := plainNumber }

/-- A fixture host whose every request fails with `message`. -/
def hostFailing (message : JSString) : Env :=
  { hostServing ⟨[], [], [], [], [], [], []⟩ with fetch := fun _ => .error message }

/-! ## Lemmas on strings -/

theorem utf16_code : utf16 "code=" = [99, 111, 100, 101, 61] := by decide

theorem matchCode_some {s code : JSString} (h : matchCode s = some code) :
    s ≠ [] ∧ includes (utf16 "code=") s = true ∧ code ≠ [] ∧ ∀ c ∈ code, isDigit c = true := by
  induction s with
  | nil => simp [matchCode] at h
  | cons c cs ih =>
    unfold matchCode at h
    split at h
    · rename_i hc
      obtain ⟨hp, hd⟩ := hc
      cases h
      refine ⟨by simp, ?_, hd, ?_⟩
      · simp [includes, hp]
      · intro x hx
        exact (List.mem_takeWhile_imp hx)
    · obtain ⟨_, hi, hne, hall⟩ := ih h
      refine ⟨by simp, ?_, hne, hall⟩
      simp [includes, hi]

theorem searchVisit_eq (elem : LinkNode) (results : List SearchResult) :
    searchVisit elem results = results ++ (searchEntry elem).toList := by
  unfold searchVisit searchEntry
  cases hh : elem.href with
  | none => simp
  | some link =>
    cases hm : matchCode link with
    | none => simp [hm]
    | some code =>
      obtain ⟨h1, h2, h3, _⟩ := matchCode_some hm
      by_cases hn : trim elem.text = [] <;> simp [hm, h1, h2, h3, hn]

theorem eachFrom_searchCallback (nodes : List LinkNode) (i : Nat) (results : List SearchResult) :
    eachFrom searchCallback nodes i results =
      results ++ (nodes.take (10 - i)).filterMap searchEntry := by
  induction nodes generalizing i results with
  | nil => simp [eachFrom]
  | cons elem rest ih =>
    by_cases h : i ≥ 10
    · have h0 : 10 - i = 0 := by omega
      have hc : searchCallback i elem results = (false, results) := by simp [searchCallback, h]
      simp [eachFrom, hc, h0]
    · have h1 : 10 - i = (10 - (i + 1)) + 1 := by omega
      have hc : searchCallback i elem results = (true, searchVisit elem results) := by
        simp [searchCallback, h]
      rw [eachFrom, hc]
      simp only
      rw [ih, searchVisit_eq, h1, List.take_succ_cons, List.filterMap_cons]
      cases searchEntry elem <;> simp

theorem searchEntry_digits {node : LinkNode} {r : SearchResult} (h : searchEntry node = some r) :
    r.code ≠ [] ∧ (∀ c ∈ r.code, isDigit c = true) ∧ r.name ≠ [] := by
  unfold searchEntry at h
  cases hh : node.href with
  | none => simp [hh] at h
  | some link =>
    cases hm : matchCode link with
    | none => simp [hh, hm] at h
    | some code =>
      obtain ⟨_, _, h3, h4⟩ := matchCode_some hm
      by_cases hn : trim node.text = []
      · simp [hh, hm, hn] at h
      · simp [hh, hm, hn] at h
        subst h
        exact ⟨h3, h4, hn⟩

/-! ## Lemmas on `parseInt` -/

theorem digitValue_ten_of_not_digit {c : Nat} (h : isDigit c = false) : digitValue 10 c = none := by
  have h1 : ¬ (48 ≤ c ∧ c ≤ 57) := by
    intro hc
    simp [isDigit, hc.1, hc.2] at h
  unfold digitValue
  simp only [h1, if_false]
  split_ifs <;> first | rfl | omega

theorem digitValue_ten_of_digit {c : Nat} (h : isDigit c = true) :
    digitValue 10 c = some (c - 48) := by
  have h1 : 48 ≤ c ∧ c ≤ 57 := by simpa [isDigit] using h
  unfold digitValue
  simp only [h1, and_self, if_true]
  rw [if_pos (by omega)]

theorem parseMagnitude_of_not_digit_head (body : JSString)
    (h : ∀ c rest, body = c :: rest → isDigit c = false) : parseMagnitude body = none := by
  cases body with
  | nil => decide
  | cons c rest =>
    have hc := h c rest rfl
    have hne : c ≠ 48 := by
      intro h48
      subst h48
      simp [isDigit] at hc
    have hx1 : (utf16 "0x").isPrefixOf (c :: rest) = false := by
      have : utf16 "0x" = [48, 120] := by decide
      rw [this]
      simp [List.isPrefixOf, hne, Ne.symm hne]
    have hx2 : (utf16 "0X").isPrefixOf (c :: rest) = false := by
      have : utf16 "0X" = [48, 88] := by decide
      rw [this]
      simp [List.isPrefixOf, hne, Ne.symm hne]
    unfold parseMagnitude
    simp [hx1, hx2, leadingDigits, digitValue_ten_of_not_digit hc]

theorem utf16_minus : utf16 "-" = [45] := by decide

theorem utf16_plus : utf16 "+" = [43] := by decide

theorem parseInt_of_not_beginsWithInteger (s : JSString) (h : beginsWithInteger s = false) :
    parseInt s = .nan := by
  unfold beginsWithInteger at h
  unfold parseInt
  rw [utf16_minus, utf16_plus]
  cases hu : s.dropWhile isWhiteSpace with
  | nil =>
    have : parseMagnitude [] = none := by decide
    simp [List.isPrefixOf, this]
  | cons c rest =>
    rw [hu] at h
    by_cases hs : c = 45 ∨ c = 43
    · simp only [hs, if_true] at h
      have hm : parseMagnitude rest = none := by
        apply parseMagnitude_of_not_digit_head
        intro d rest2 hr
        subst hr
        simpa using h
      rcases hs with hs | hs <;> subst hs <;> simp [List.isPrefixOf, hm]
    · simp only [hs, if_false] at h
      have hm : parseMagnitude (c :: rest) = none := by
        apply parseMagnitude_of_not_digit_head
        intro d rest2 hr
        cases hr
        exact h
      have h45 : ¬ (45 = c) := fun e => hs (Or.inl e.symm)
      have h43 : ¬ (43 = c) := fun e => hs (Or.inr e.symm)
      simp [List.isPrefixOf, h45, h43, hm]

theorem orZero_fin (z : Int) : orZero (.fin z) = .fin z := by
  unfold orZero
  split <;> simp_all

theorem orZero_parseInt_of_no_integer (t : JSString)
    (h : beginsWithInteger (stripCommas (trim t)) = false) :
    orZero (parseInt (stripCommas (trim t))) = .fin 0 ∧
    orZero (parseInt (orZeroText (stripCommas (trim t)))) = .fin 0 := by
  have hp := parseInt_of_not_beginsWithInteger _ h
  constructor
  · rw [hp]
    rfl
  · unfold orZeroText
    by_cases he : stripCommas (trim t) = []
    · rw [if_pos he]
      decide
    · rw [if_neg he, hp]
      rfl

theorem orZero_parseIntArg_of_unreadable (f : Option JSString)
    (h : unreadableField f = true) : orZero (parseIntArg f) = .fin 0 := by
  cases f with
  | none => decide
  | some t =>
    have ht : beginsWithInteger t = false := by simpa [unreadableField] using h
    simp only [parseIntArg, parseInt_of_not_beginsWithInteger t ht]
    rfl

theorem mem_of_mem_trim {x : Nat} {t : JSString} (h : x ∈ trim t) : x ∈ t := by
  unfold trim at h
  have h1 := (List.dropWhile_sublist isWhiteSpace).subset (List.mem_reverse.mp h)
  exact (List.dropWhile_sublist isWhiteSpace).subset (List.mem_reverse.mp h1)

theorem beginsWithInteger_of_no_digit (s : JSString) (h : ∀ c ∈ s, isDigit c = false) :
    beginsWithInteger s = false := by
  have hsub : ∀ x ∈ s.dropWhile isWhiteSpace, isDigit x = false :=
    fun x hx => h x ((List.dropWhile_sublist isWhiteSpace).subset hx)
  unfold beginsWithInteger
  cases hu : s.dropWhile isWhiteSpace with
  | nil => rfl
  | cons c rest =>
    rw [hu] at hsub
    by_cases hs : c = 45 ∨ c = 43
    · simp only [hs, if_true]
      cases rest with
      | nil => rfl
      | cons d rest2 => exact hsub d (by simp)
    · simp only [hs, if_false]
      exact hsub c (by simp)

theorem noLeadingInteger_of_no_digit (t : JSString) (h : ∀ c ∈ t, isDigit c = false) :
    noLeadingInteger (some t) = true := by
  have := beginsWithInteger_of_no_digit (stripCommas (trim t)) (by
    intro x hx
    unfold stripCommas at hx
    exact h x (mem_of_mem_trim (List.mem_filter.mp hx).1))
  simp [noLeadingInteger, this]

theorem beginsWithInteger_eqText_of_absent (sel : List JSString) (i : Nat)
    (h : noLeadingInteger (sel.get? i) = true) :
    beginsWithInteger (stripCommas (trim (eqText sel i))) = false := by
  unfold eqText
  cases hg : sel.get? i with
  | none => decide
  | some t =>
    rw [hg] at h
    simpa [noLeadingInteger] using h

theorem dropWhile_append_of_all {p : Nat → Bool} (l m : JSString)
    (h : ∀ c ∈ l, p c = true) : (l ++ m).dropWhile p = m.dropWhile p := by
  induction l with
  | nil => rfl
  | cons c rest ih =>
    have hc : p c = true := h c (by simp)
    simp only [List.cons_append, List.dropWhile_cons, hc, if_true]
    exact ih (fun x hx => h x (by simp [hx]))

theorem dropWhile_append_of_none {p : Nat → Bool} (l m : JSString) (hne : l ≠ [])
    (h : ∀ c ∈ l, p c = false) : (l ++ m).dropWhile p = l ++ m := by
  cases l with
  | nil => exact absurd rfl hne
  | cons c rest =>
    have hc : p c = false := h c (by simp)
    simp [List.dropWhile_cons, hc]

theorem trim_surrounded (ws1 g ws2 : JSString) (h1 : ∀ c ∈ ws1, isWhiteSpace c = true)
    (h2 : ∀ c ∈ ws2, isWhiteSpace c = true) (hne : g ≠ [])
    (hg : ∀ c ∈ g, isWhiteSpace c = false) : trim (ws1 ++ g ++ ws2) = g := by
  unfold trim
  rw [List.append_assoc, dropWhile_append_of_all ws1 _ h1, dropWhile_append_of_none g ws2 hne hg,
    List.reverse_append,
    dropWhile_append_of_all ws2.reverse _ (fun c hc => h2 c (List.mem_reverse.mp hc))]
  have := dropWhile_append_of_none (p := isWhiteSpace) g.reverse [] (by simpa using hne)
    (fun c hc => hg c (List.mem_reverse.mp hc))
  rw [List.append_nil] at this
  rw [this, List.reverse_reverse]

theorem not_whiteSpace_of_digit_or_comma {c : Nat} (h : isDigit c = true ∨ c = comma) :
    isWhiteSpace c = false := by
  rcases h with h | h
  · have h1 : 48 ≤ c ∧ c ≤ 57 := by simpa [isDigit] using h
    have h2 : c = 48 ∨ c = 49 ∨ c = 50 ∨ c = 51 ∨ c = 52 ∨ c = 53 ∨ c = 54 ∨ c = 55 ∨ c = 56 ∨
        c = 57 := by omega
    rcases h2 with h2 | h2 | h2 | h2 | h2 | h2 | h2 | h2 | h2 | h2 <;> subst h2 <;> decide
  · subst h
    decide

theorem stripCommas_eq_filter_isDigit (g : JSString)
    (h : ∀ c ∈ g, isDigit c = true ∨ c = comma) : stripCommas g = g.filter isDigit := by
  unfold stripCommas
  apply List.filter_congr
  intro c hc
  rcases h c hc with hd | hd
  · have h1 : 48 ≤ c ∧ c ≤ 57 := by simpa [isDigit] using hd
    have : c ≠ comma := by
      unfold comma
      omega
    simp [hd, this]
  · subst hd
    decide

theorem leadingDigits_of_digits (ds : JSString) (h : ∀ c ∈ ds, isDigit c = true) :
    leadingDigits 10 ds = ds.map (fun c => c - 48) := by
  induction ds with
  | nil => rfl
  | cons c rest ih =>
    have hc := h c (by simp)
    simp only [leadingDigits, digitValue_ten_of_digit hc, List.map_cons]
    rw [ih (fun x hx => h x (by simp [hx]))]

theorem excessBits_small (n : Nat) (h : n < 2 ^ 53) : excessBits n n 0 = 0 := by
  cases n with
  | zero => rfl
  | succ k =>
    unfold excessBits
    rw [if_pos (by simpa using h)]

theorem roundToDouble_small (n : Nat) (h : n < 2 ^ 53) : roundToDouble n = some n := by
  have hl : n < doubleLimit := by
    have : (2 : Nat) ^ 53 ≤ doubleLimit := by
      unfold doubleLimit
      norm_num
    omega
  unfold roundToDouble
  simp only [excessBits_small n h]
  simp [Nat.mod_one, hl]

theorem parseInt_of_digits (ds : JSString) (hne : ds ≠ []) (h : ∀ c ∈ ds, isDigit c = true)
    (hv : digitsValue 10 (ds.map (fun c => c - 48)) < 2 ^ 53) :
    parseInt ds = .fin (digitsValue 10 (ds.map (fun c => c - 48))) := by
  cases ds with
  | nil => exact absurd rfl hne
  | cons c rest =>
    have hc : 48 ≤ c ∧ c ≤ 57 := by simpa [isDigit] using h c (by simp)
    have hws : isWhiteSpace c = false := not_whiteSpace_of_digit_or_comma (Or.inl (h c (by simp)))
    have h45 : ¬ (45 = c) := by omega
    have h43 : ¬ (43 = c) := by omega
    have hx : ∀ x : Nat, x = 120 ∨ x = 88 → ([48, x] : JSString).isPrefixOf (c :: rest) = false := by
      intro x hx
      cases rest with
      | nil => simp [List.isPrefixOf]
      | cons d rest2 =>
        have hd : 48 ≤ d ∧ d ≤ 57 := by simpa [isDigit] using h d (by simp)
        have : ¬ (x = d) := by omega
        simp [List.isPrefixOf, this]
    have hx1 : (utf16 "0x").isPrefixOf (c :: rest) = false := by
      have : utf16 "0x" = [48, 120] := by decide
      rw [this]
      exact hx 120 (Or.inl rfl)
    have hx2 : (utf16 "0X").isPrefixOf (c :: rest) = false := by
      have : utf16 "0X" = [48, 88] := by decide
      rw [this]
      exact hx 88 (Or.inr rfl)
    have hm : parseMagnitude (c :: rest) =
        some (some (digitsValue 10 ((c :: rest).map (fun c => c - 48)))) := by
      unfold parseMagnitude
      simp only [hx1, hx2, Bool.or_self, Bool.false_eq_true, if_false]
      rw [leadingDigits_of_digits _ h, List.map_cons]
      simp only
      rw [← List.map_cons (fun c => c - 48) c rest, roundToDouble_small _ hv]
    unfold parseInt
    rw [utf16_minus, utf16_plus]
    simp [List.dropWhile_cons, hws, List.isPrefixOf, h45, h43, hm]

theorem groupTail_chars (s : JSString) (h : groupTail s = true) :
    ∀ c ∈ s, isDigit c = true ∨ c = comma := by
  induction s using groupTail.induct with
  | case1 => simp
  | case2 c d1 d2 d3 rest ih =>
    simp only [groupTail, Bool.and_eq_true, beq_iff_eq] at h
    obtain ⟨⟨⟨⟨hc, h1⟩, h2⟩, h3⟩, hr⟩ := h
    intro x hx
    simp only [List.mem_cons] at hx
    rcases hx with hx | hx | hx | hx | hx
    · exact Or.inr (hx.trans hc)
    · exact Or.inl (hx ▸ h1)
    · exact Or.inl (hx ▸ h2)
    · exact Or.inl (hx ▸ h3)
    · exact ih hr x hx
  | case3 s h1 h2 =>
    exfalso
    unfold groupTail at h
    split at h
    · exact h1 rfl
    · exact h2 _ _ _ _ _ rfl
    · exact Bool.false_ne_true h

theorem thousandsGrouped_digitsAndCommas (g : JSString) (h : thousandsGrouped g = true) :
    digitsAndCommas g = true := by
  cases g with
  | nil => simp [thousandsGrouped] at h
  | cons d1 rest1 =>
    simp only [thousandsGrouped, Bool.and_eq_true, Bool.or_eq_true] at h
    obtain ⟨hd1, h⟩ := h
    have hall : ∀ c ∈ rest1, isDigit c = true ∨ c = comma := by
      rcases h with h | h
      · exact groupTail_chars _ h
      · cases rest1 with
        | nil => simp
        | cons d2 rest2 =>
          simp only [Bool.and_eq_true, Bool.or_eq_true] at h
          obtain ⟨hd2, h⟩ := h
          intro x hx
          simp only [List.mem_cons] at hx
          rcases hx with hx | hx
          · exact Or.inl (hx ▸ hd2)
          · rcases h with h | h
            · exact groupTail_chars _ h x hx
            · cases rest2 with
              | nil => simp at hx
              | cons d3 rest3 =>
                simp only [Bool.and_eq_true] at h
                simp only [List.mem_cons] at hx
                rcases hx with hx | hx
                · exact Or.inl (hx ▸ h.1)
                · exact groupTail_chars _ h.2 x hx
    unfold digitsAndCommas
    simp only [Bool.and_eq_true, List.all_eq_true, List.any_eq_true, Bool.or_eq_true,
      beq_iff_eq]
    refine ⟨?_, d1, by simp, hd1⟩
    intro x hx
    simp only [List.mem_cons] at hx
    rcases hx with hx | hx
    · exact Or.inl (hx ▸ hd1)
    · exact hall x hx

/-- The price of a quote page whose displayed price is a text of digits and
commas, surrounded by white space, that denotes a value below `2 ^ 53`. -/
theorem price_of_digits_and_commas (doc : Document) (code ws1 g ws2 : JSString)
    (h1 : ∀ c ∈ ws1, isWhiteSpace c = true) (h2 : ∀ c ∈ ws2, isWhiteSpace c = true)
    (hg : digitsAndCommas g = true) (hdoc : doc.noToday.get? 0 = some (ws1 ++ g ++ ws2))
    (hv : denotedValue g < 2 ^ 53) :
    (quoteOfDocument doc code).price = .fin (denotedValue g) := by
  simp only [digitsAndCommas, Bool.and_eq_true, List.all_eq_true, List.any_eq_true,
    Bool.or_eq_true, beq_iff_eq] at hg
  obtain ⟨hall, d, hd, hdd⟩ := hg
  have hne : g ≠ [] := by
    intro h0
    simp [h0] at hd
  have htrim : trim (eqText doc.noToday 0) = g := by
    unfold eqText
    rw [hdoc]
    exact trim_surrounded ws1 g ws2 h1 h2 hne
      (fun c hc => not_whiteSpace_of_digit_or_comma (hall c hc))
  have hdigits : ∀ c ∈ g.filter isDigit, isDigit c = true := fun c hc => (List.mem_filter.mp hc).2
  have hfne : g.filter isDigit ≠ [] := by
    intro h0
    have : d ∈ g.filter isDigit := List.mem_filter.mpr ⟨hd, hdd⟩
    simp [h0] at this
  simp only [quoteOfDocument]
  rw [htrim, stripCommas_eq_filter_isDigit g hall, parseInt_of_digits _ hfne hdigits hv, orZero_fin]
  rfl

theorem beginsWithInteger_of_numericText (t : JSString) (h : numericText t = true) :
    beginsWithInteger (stripCommas (trim t)) = true := by
  unfold numericText at h
  unfold beginsWithInteger
  cases hs : stripCommas (trim t) with
  | nil => simp [hs] at h
  | cons c rest =>
    rw [hs] at h
    by_cases hsign : c = 45 ∨ c = 43
    · simp only [hsign, if_true, Bool.and_eq_true, List.all_eq_true] at h
      have hws : isWhiteSpace c = false := by
        rcases hsign with hc | hc <;> subst hc <;> decide
      simp only [List.dropWhile_cons, hws, Bool.false_eq_true, if_false, hsign, if_true]
      cases rest with
      | nil => simp at h
      | cons d rest2 => exact h.2 d (by simp)
    · simp only [hsign, if_false, List.all_eq_true] at h
      have hd : isDigit c = true := h c (by simp)
      have hws : isWhiteSpace c = false := not_whiteSpace_of_digit_or_comma (Or.inl hd)
      simp only [List.dropWhile_cons, hws, Bool.false_eq_true, if_false, hsign]
      exact hd

/-! ## Lemmas on the candle loop -/

theorem candleCallback_eq (i : Nat) (elem : Item) (items : List Candle) :
    candleCallback i elem items = (true, items ++ (candleOfItem elem).toList) := by
  unfold candleCallback candleOfItem
  cases elem.data with
  | none => simp
  | some data => by_cases h : data = [] <;> simp [h]

theorem eachFrom_candleCallback (items : List Item) (i : Nat) (acc : List Candle) :
    eachFrom candleCallback items i acc = acc ++ items.filterMap candleOfItem := by
  induction items generalizing i acc with
  | nil => simp [eachFrom]
  | cons it rest ih =>
    rw [eachFrom, candleCallback_eq]
    simp only
    rw [ih, List.filterMap_cons]
    cases candleOfItem it <;> simp

theorem each_candleCallback (items : List Item) :
    each candleCallback items [] = items.filterMap candleOfItem := by
  unfold each
  rw [eachFrom_candleCallback]
  simp

theorem getOHLCV_ok (env : Env) (code : JSString) (days : Int) (doc : Document)
    (h : env.fetch (chartUrl env code days) = .ok doc) :
    (getOHLCV env code days).1 = .ok (doc.items.filterMap candleOfItem) := by
  unfold getOHLCV
  rw [h]
  simp only
  rw [each_candleCallback]

theorem filterMap_candleOfItem_of_all (items : List Item)
    (h : ∀ it ∈ items, ∃ d, it.data = some d ∧ d ≠ []) :
    items.filterMap candleOfItem = items.map (fun it => candleOfData (it.data.getD [])) := by
  induction items with
  | nil => rfl
  | cons it rest ih =>
    obtain ⟨d, hd, hne⟩ := h it (by simp)
    rw [List.filterMap_cons, List.map_cons, ih (fun x hx => h x (by simp [hx]))]
    simp [candleOfItem, hd, hne]

theorem splitPipe_head (s : JSString) :
    (splitPipe s).get? 0 = some (s.takeWhile (fun c => c != pipe)) := by
  induction s with
  | nil => rfl
  | cons c cs ih =>
    unfold splitPipe
    by_cases hc : c = pipe
    · simp [hc]
    · simp only [hc, if_false]
      cases hs : splitPipe cs with
      | nil => simp [hs] at ih
      | cons f fs =>
        rw [hs] at ih
        simp only [List.get?_cons_zero, Option.some.injEq] at ih
        simp [List.takeWhile_cons, hc, ih]

theorem candleOfData_date (data : JSString) :
    (candleOfData data).date = some ((data.takeWhile (fun c => c != pipe)).take 8) := by
  simp only [candleOfData, splitPipe_head, Option.map_some', substring0]

/-! ## Lemmas on the ranking loops -/

theorem codeOfHref_some {href : Option JSString} {code : JSString}
    (h : codeOfHref href = some code) : code ≠ [] := by
  cases href with
  | none => simp [codeOfHref] at h
  | some l => exact (matchCode_some h).2.2.1

theorem marketCapCallback_eq (limit : Int) (i : Nat) (elem : Row) (results : List MarketCapEntry) :
    marketCapCallback limit i elem results =
      if (results.length : Int) ≥ limit then (false, results)
      else (true, results ++ (marketCapEntry elem).toList) := by
  unfold marketCapCallback marketCapEntry validRow
  by_cases hl : (results.length : Int) ≥ limit
  · simp [hl]
  · simp only [hl, if_false]
    by_cases h2 : elem.tds.length < 2
    · have h2n : ¬ 2 ≤ elem.tds.length := by omega
      cases codeOfHref (nameElemHref elem.tds) <;> simp [h2, h2n]
    · have h2p : 2 ≤ elem.tds.length := by omega
      cases hc : codeOfHref (nameElemHref elem.tds) with
      | none => simp [h2]
      | some code =>
        have hne := codeOfHref_some hc
        by_cases hn : trim (nameElemText elem.tds) = [] <;>
          by_cases hr : trim (cellText elem.tds 0) = [] <;> simp [h2, h2p, hne, hn, hr]

theorem volumeCallback_eq (limit : Int) (i : Nat) (elem : Row) (results : List VolumeEntry) :
    volumeCallback limit i elem results =
      if (results.length : Int) ≥ limit then (false, results)
      else (true, results ++ (volumeEntry elem).toList) := by
  unfold volumeCallback volumeEntry validRow
  by_cases hl : (results.length : Int) ≥ limit
  · simp [hl]
  · simp only [hl, if_false]
    by_cases h2 : elem.tds.length < 2
    · have h2n : ¬ 2 ≤ elem.tds.length := by omega
      cases codeOfHref (nameElemHref elem.tds) <;> simp [h2, h2n]
    · have h2p : 2 ≤ elem.tds.length := by omega
      cases hc : codeOfHref (nameElemHref elem.tds) with
      | none => simp [h2]
      | some code =>
        have hne := codeOfHref_some hc
        by_cases hn : trim (nameElemText elem.tds) = [] <;>
          by_cases hr : trim (cellText elem.tds 0) = [] <;> simp [h2, h2p, hne, hn, hr]

/-- A loop whose callback stops at `limit` results and otherwise appends what `f`
makes of the node yields the first `limit` values of `f`. -/
theorem eachFrom_limit {α ρ : Type} (f : ρ → Option α) (limit : Int)
    (callback : Nat → ρ → List α → Bool × List α)
    (hcb : ∀ i x s, callback i x s =
      if (s.length : Int) ≥ limit then (false, s) else (true, s ++ (f x).toList))
    (xs : List ρ) (i : Nat) (s : List α) :
    eachFrom callback xs i s = s ++ (xs.filterMap f).take (limit.toNat - s.length) := by
  induction xs generalizing i s with
  | nil => simp [eachFrom]
  | cons x rest ih =>
    rw [eachFrom, hcb]
    by_cases hl : (s.length : Int) ≥ limit
    · have h0 : limit.toNat - s.length = 0 := by omega
      simp [hl, h0]
    · simp only [hl, if_false]
      rw [ih]
      cases hf : f x with
      | none => simp [List.filterMap_cons, hf]
      | some e =>
        have h1 : limit.toNat - s.length = (limit.toNat - (s.length + 1)) + 1 := by omega
        simp only [List.filterMap_cons, hf, Option.toList, List.length_append, List.length_singleton]
        rw [h1, List.take_succ_cons]
        simp

theorem marketCapEntry_isSome (r : Row) : (marketCapEntry r).isSome = validRow r := by
  unfold marketCapEntry
  cases hc : codeOfHref (nameElemHref r.tds) with
  | none => simp [validRow, hc]
  | some code => by_cases hv : validRow r = true <;> simp [hv]

theorem volumeEntry_isSome (r : Row) : (volumeEntry r).isSome = validRow r := by
  unfold volumeEntry
  cases hc : codeOfHref (nameElemHref r.tds) with
  | none => simp [validRow, hc]
  | some code => by_cases hv : validRow r = true <;> simp [hv]

theorem length_filterMap_of_isSome {α ρ : Type} (f : ρ → Option α) (p : ρ → Bool)
    (h : ∀ r, (f r).isSome = p r) (rows : List ρ) :
    (rows.filterMap f).length = (rows.filter p).length := by
  induction rows with
  | nil => rfl
  | cons r rest ih =>
    have hr := h r
    cases hf : f r with
    | none =>
      rw [hf] at hr
      simp [List.filterMap_cons, hf, List.filter_cons, ← hr, ih]
    | some e =>
      rw [hf] at hr
      simp [List.filterMap_cons, hf, List.filter_cons, ← hr, ih]

theorem each_marketCapCallback (rows : List Row) (limit : Int) :
    each (marketCapCallback limit) rows [] = (rows.filterMap marketCapEntry).take limit.toNat := by
  unfold each
  rw [eachFrom_limit marketCapEntry limit _ (marketCapCallback_eq limit)]
  simp

theorem each_volumeCallback (rows : List Row) (limit : Int) :
    each (volumeCallback limit) rows [] = (rows.filterMap volumeEntry).take limit.toNat := by
  unfold each
  rw [eachFrom_limit volumeEntry limit _ (volumeCallback_eq limit)]
  simp

theorem get_market_cap_ok (env : Env) (args : Args) (doc : Document)
    (h : env.fetch (marketCapUrl env (textOr args.market (utf16 "kospi"))) = .ok doc) :
    (get_market_cap env args).1 =
      .ok ((doc.rows.filterMap marketCapEntry).take (intOr args.limit 10).toNat) := by
  unfold get_market_cap getMarketCapRanking
  rw [h]
  simp only
  rw [each_marketCapCallback]

theorem get_trading_volume_ok (env : Env) (args : Args) (doc : Document)
    (h : env.fetch (volumeUrl env (textOr args.market (utf16 "kospi"))) = .ok doc) :
    (get_trading_volume env args).1 =
      .ok ((doc.rows.filterMap volumeEntry).take (intOr args.limit 10).toNat) := by
  unfold get_trading_volume getTradingVolumeRanking
  rw [h]
  simp only
  rw [each_volumeCallback]

theorem length_take_eq_min (n : Int) (hn : 0 ≤ n) {α : Type} (l : List α) (m : Nat)
    (hm : l.length = m) : ((l.take n.toNat).length : Int) = min n (m : Int) := by
  rw [List.length_take, hm]
  omega

theorem map_rank_marketCapEntry (rows : List Row) :
    (rows.filterMap marketCapEntry).map (fun e => e.rank) =
      (rows.filter (fun r => validRow r)).map rowRank := by
  induction rows with
  | nil => rfl
  | cons r rest ih =>
    unfold marketCapEntry at *
    cases hc : codeOfHref (nameElemHref r.tds) with
    | none =>
      have hv : validRow r = false := by simp [validRow, hc]
      simp [List.filterMap_cons, hc, List.filter_cons, hv, ih]
    | some code =>
      by_cases hv : validRow r = true
      · simp [List.filterMap_cons, hc, List.filter_cons, hv, ih, rowRank]
      · simp [List.filterMap_cons, hc, List.filter_cons, hv, ih]

theorem map_rank_volumeEntry (rows : List Row) :
    (rows.filterMap volumeEntry).map (fun e => e.rank) =
      (rows.filter (fun r => validRow r)).map rowRank := by
  induction rows with
  | nil => rfl
  | cons r rest ih =>
    unfold volumeEntry at *
    cases hc : codeOfHref (nameElemHref r.tds) with
    | none =>
      have hv : validRow r = false := by simp [validRow, hc]
      simp [List.filterMap_cons, hc, List.filter_cons, hv, ih]
    | some code =>
      by_cases hv : validRow r = true
      · simp [List.filterMap_cons, hc, List.filter_cons, hv, ih, rowRank]
      · simp [List.filterMap_cons, hc, List.filter_cons, hv, ih]

theorem nonDecreasing_take (l : List JSNumber) (n : Nat) (h : nonDecreasing l = true) :
    nonDecreasing (l.take n) = true := by
  induction l generalizing n with
  | nil => simp [nonDecreasing]
  | cons a rest ih =>
    cases n with
    | zero => simp [nonDecreasing]
    | succ k =>
      cases rest with
      | nil => simp [nonDecreasing]
      | cons b rest2 =>
        simp only [nonDecreasing, Bool.and_eq_true] at h
        cases k with
        | zero => simp [nonDecreasing]
        | succ j =>
          have := ih (j + 1) h.2
          simp only [List.take_succ_cons] at this ⊢
          simp only [nonDecreasing, Bool.and_eq_true]
          exact ⟨h.1, this⟩

/-! ## Lemmas on the dispatch -/

theorem handlerBody_get_stock_price (env : Env) (args : Args) :
    handlerBody env (utf16 "get_stock_price") args = stockPriceCase env args := by
  unfold handlerBody
  rw [if_pos rfl]

theorem handlerBody_search_stock (env : Env) (args : Args) :
    handlerBody env (utf16 "search_stock") args = searchStockCase env args := by
  unfold handlerBody
  rw [if_neg (by decide), if_pos rfl]

theorem handlerBody_get_stock_chart (env : Env) (args : Args) :
    handlerBody env (utf16 "get_stock_chart") args = stockChartCase env args := by
  unfold handlerBody
  rw [if_neg (by decide), if_neg (by decide), if_pos rfl]

theorem handlerBody_get_market_cap (env : Env) (args : Args) :
    handlerBody env (utf16 "get_market_cap") args = marketCapCase env args := by
  unfold handlerBody
  rw [if_neg (by decide), if_neg (by decide), if_neg (by decide), if_pos rfl]

theorem handlerBody_get_trading_volume (env : Env) (args : Args) :
    handlerBody env (utf16 "get_trading_volume") args = tradingVolumeCase env args := by
  unfold handlerBody
  rw [if_neg (by decide), if_neg (by decide), if_neg (by decide), if_neg (by decide), if_pos rfl]

/-! ## Theorems -/

/-- C2: for every page, the list `searchStock` builds has at most 10 entries and
every entry's code is a non-empty string of decimal digits; the same holds of
whatever `searchStock` resolves to on any host and keyword. -/
theorem searchStock_bounded_digit_codes :
    (∀ doc : Document,
      (searchResultsOfDocument doc).length ≤ 10 ∧
      ∀ r ∈ searchResultsOfDocument doc, r.code ≠ [] ∧ ∀ c ∈ r.code, isDigit c = true) ∧
    (∀ (env : Env) (keyword : JSString) (results : List SearchResult),
      (searchStock env keyword).1 = .ok results →
      results.length ≤ 10 ∧ ∀ r ∈ results, r.code ≠ [] ∧ ∀ c ∈ r.code, isDigit c = true) := by
  have key : ∀ doc : Document,
      (searchResultsOfDocument doc).length ≤ 10 ∧
      ∀ r ∈ searchResultsOfDocument doc, r.code ≠ [] ∧ ∀ c ∈ r.code, isDigit c = true := by
    intro doc
    unfold searchResultsOfDocument each
    rw [eachFrom_searchCallback]
    constructor
    · calc ([] ++ (doc.tltle.take (10 - 0)).filterMap searchEntry).length
          ≤ (doc.tltle.take 10).length := by
            simpa using List.length_filterMap_le searchEntry (doc.tltle.take 10)
        _ ≤ 10 := by simp
    · intro r hr
      simp only [List.nil_append, List.mem_filterMap] at hr
      obtain ⟨node, _, hnode⟩ := hr
      exact ⟨(searchEntry_digits hnode).1, (searchEntry_digits hnode).2.1⟩
  refine ⟨key, ?_⟩
  intro env keyword results h
  unfold searchStock at h
  cases he : env.encodeURIComponent keyword with
  | error m => simp [he] at h
  | ok encoded =>
    cases hf : env.fetch (searchUrl encoded) with
    | error m => simp [he, hf] at h
    | ok doc =>
      simp [he, hf] at h
      subst h
      exact key doc

/-- C2, at the page of scenario B served for the keyword "카카오". -/
theorem searchStock_bounded_digit_codes_witness :
    (searchResultsOfDocument scenarioB).length ≤ 10 ∧
    ∀ r ∈ searchResultsOfDocument scenarioB, r.code ≠ [] ∧ ∀ c ∈ r.code, isDigit c = true :=
  searchStock_bounded_digit_codes.2 (hostServing scenarioB) (utf16 "카카오")
    (searchResultsOfDocument scenarioB) rfl

/-- C3 as stated fails: on a page of eleven title links whose first has no `href`
and whose other ten have a code and a name, `searchStock` returns nine entries,
not the ten pairs of the first ten nodes that have both. -/
theorem searchStock_skipped_node_counts :
    (searchResultsOfDocument elevenLinks).length = 9 ∧
    ((elevenLinks.tltle.filterMap searchEntry).take 10).length = 10 ∧
    searchResultsOfDocument elevenLinks ≠ (elevenLinks.tltle.filterMap searchEntry).take 10 := by
  decide

/-- C3, amended: a node missing a `code=` digit parameter or a name is not emitted,
and the iteration ends after the tenth node whether or not nodes were skipped: the
result is the pairs of those among the first 10 nodes that have both a code and a
non-empty name, in document order.  Scenario B yields the one pair
(`035720`, "카카오"). -/
theorem searchStock_first_ten_nodes :
    (∀ doc : Document,
      searchResultsOfDocument doc = (doc.tltle.take 10).filterMap searchEntry) ∧
    searchResultsOfDocument scenarioB = [{ code := utf16 "035720", name := utf16 "카카오" }] := by
  refine ⟨?_, by decide⟩
  intro doc
  unfold searchResultsOfDocument each
  rw [eachFrom_searchCallback]
  simp

/-- C1: when the `code` argument is missing or its length is not 6, `get_stock_price`
and `get_stock_chart` answer with their validation error and request no URL; when
its length is 6, each requests exactly the URL of its extractor
(`getStockFromNaver`, `getOHLCV`) for that code. -/
theorem code_validation_guards_fetch (env : Env) (args : Args) :
    ((args.code = none ∨ ∃ c, args.code = some c ∧ c.length ≠ 6) →
      callTool env (utf16 "get_stock_price") args =
        ({ content := [utf16 "❌ 오류 발생: " ++ utf16 "6자리 종목 코드를 입력해주세요 (예: 005930)"],
           isError := true }, []) ∧
      callTool env (utf16 "get_stock_chart") args =
        ({ content := [utf16 "❌ 오류 발생: " ++ utf16 "6자리 종목 코드를 입력해주세요"],
           isError := true }, [])) ∧
    (∀ c, args.code = some c → c.length = 6 →
      (callTool env (utf16 "get_stock_price") args).2 = (getStockFromNaver env c).2 ∧
      (getStockFromNaver env c).2 = [quoteUrl c] ∧
      (callTool env (utf16 "get_stock_chart") args).2 = (getOHLCV env c (intOr args.days 30)).2 ∧
      (getOHLCV env c (intOr args.days 30)).2 = [chartUrl env c (intOr args.days 30)]) := by
  constructor
  · rintro (h | ⟨c, h, hc⟩)
    · simp [callTool, handlerBody_get_stock_price, handlerBody_get_stock_chart, stockPriceCase,
        stockChartCase, h]
    · have hc2 : c = [] ∨ ¬ c.length = 6 := Or.inr hc
      simp [callTool, handlerBody_get_stock_price, handlerBody_get_stock_chart, stockPriceCase,
        stockChartCase, h, hc2]
  · intro c h hc
    have hne : ¬ (c = [] ∨ c.length ≠ 6) := by
      rintro (h0 | h0)
      · simp [h0] at hc
      · exact h0 hc
    have hq : (getStockFromNaver env c).2 = [quoteUrl c] := by
      unfold getStockFromNaver
      cases env.fetch (quoteUrl c) <;> rfl
    have ho : (getOHLCV env c (intOr args.days 30)).2 = [chartUrl env c (intOr args.days 30)] := by
      unfold getOHLCV
      cases env.fetch (chartUrl env c (intOr args.days 30)) <;> rfl
    refine ⟨?_, hq, ?_, ho⟩
    · simp only [callTool, handlerBody_get_stock_price, stockPriceCase, h, hne, if_false]
      rcases hg : getStockFromNaver env c with ⟨r, urls⟩
      cases r <;> rfl
    · simp only [callTool, handlerBody_get_stock_chart, stockChartCase, h, hne, if_false]
      rcases hg : getOHLCV env c (intOr args.days 30) with ⟨r, urls⟩
      cases r with
      | error m => rfl
      | ok data =>
        simp only
        by_cases hd : data.length = 0
        · simp [hd]
        · simp only [hd, if_false]
          cases chartText env c (intOr args.days 30) data <;> rfl

/-- C1, at a five-character code (rejected, nothing requested) and at `005930`
(one request to the quote page). -/
theorem code_validation_guards_fetch_witness :
    callTool (hostFailing (utf16 "timeout of 10000ms exceeded")) (utf16 "get_stock_price")
        { code := some (utf16 "00593"), keyword := none, days := none, market := none,
          limit := none } =
      ({ content := [utf16 "❌ 오류 발생: " ++ utf16 "6자리 종목 코드를 입력해주세요 (예: 005930)"],
         isError := true }, []) ∧
    (callTool (hostFailing (utf16 "timeout of 10000ms exceeded")) (utf16 "get_stock_price")
        { code := some (utf16 "005930"), keyword := none, days := none, market := none,
          limit := none }).2 =
      (getStockFromNaver (hostFailing (utf16 "timeout of 10000ms exceeded")) (utf16 "005930")).2 :=
  ⟨((code_validation_guards_fetch _ _).1 (Or.inr ⟨utf16 "00593", rfl, by decide⟩)).1,
   ((code_validation_guards_fetch _ _).2 (utf16 "005930") rfl (by decide)).1⟩

/-- C4 as stated fails at a requested limit of 0: against the table of scenario C
(8 valid rows) `get_market_cap` returns 8 entries, neither the minimum of 0 and 8
nor at most 0. -/
theorem get_market_cap_limit_zero :
    ∃ list, (get_market_cap (hostServing scenarioC) (rankingArgs none (some 0))).1 = .ok list ∧
      list.length = 8 ∧ (scenarioC.rows.filter validRow).length = 8 ∧
      ¬ ((list.length : Int) = min 0 ((scenarioC.rows.filter validRow).length : Int)) ∧
      ¬ ((list.length : Int) ≤ 0) :=
  ⟨_, rfl, by decide, by decide, by decide, by decide⟩

/-- C4, amended: for every ranking page and every requested limit of at least 1,
the list `get_market_cap` and `get_trading_volume` return is the first `limit` of
the successfully parsed rows in document order, so its length is the minimum of
the limit and the number of those rows.  The extractors called with any limit
return the first `limit` parsed rows (none for a limit below 1), and the tools
pass 10 to them when the requested limit is absent or 0.  Scenario C
(`kosdaq`, limit 5, 8 valid rows) requests `sosok=1` and yields the ranks 1 to 5. -/
theorem ranking_is_first_limit_parsed_rows :
    (∀ (rows : List Row) (limit : Int),
      each (marketCapCallback limit) rows [] = (rows.filterMap marketCapEntry).take limit.toNat ∧
      each (volumeCallback limit) rows [] = (rows.filterMap volumeEntry).take limit.toNat ∧
      (rows.filterMap marketCapEntry).length = (rows.filter (fun r => validRow r)).length ∧
      (rows.filterMap volumeEntry).length = (rows.filter (fun r => validRow r)).length) ∧
    (∀ (env : Env) (args : Args) (doc : Document) (n : Int), 1 ≤ n → args.limit = some n →
      (env.fetch (marketCapUrl env (textOr args.market (utf16 "kospi"))) = .ok doc →
        ∃ list, (get_market_cap env args).1 = .ok list ∧
          list = (doc.rows.filterMap marketCapEntry).take n.toNat ∧
          (list.length : Int) = min n ((doc.rows.filter (fun r => validRow r)).length : Int) ∧
          (list.length : Int) ≤ n) ∧
      (env.fetch (volumeUrl env (textOr args.market (utf16 "kospi"))) = .ok doc →
        ∃ list, (get_trading_volume env args).1 = .ok list ∧
          list = (doc.rows.filterMap volumeEntry).take n.toNat ∧
          (list.length : Int) = min n ((doc.rows.filter (fun r => validRow r)).length : Int) ∧
          (list.length : Int) ≤ n)) ∧
    (∀ (env : Env) (args : Args), args.limit = none ∨ args.limit = some 0 →
      get_market_cap env args = getMarketCapRanking env (textOr args.market (utf16 "kospi")) 10 ∧
      get_trading_volume env args =
        getTradingVolumeRanking env (textOr args.market (utf16 "kospi")) 10) ∧
    (∃ list, get_market_cap (hostServing scenarioC)
        (rankingArgs (some (utf16 "kosdaq")) (some 5)) =
          (.ok list, [utf16 "https://finance.naver.com/sise/sise_market_sum.naver?sosok=1&page=1"]) ∧
      list.map (fun e => e.rank) = [.fin 1, .fin 2, .fin 3, .fin 4, .fin 5]) := by
  refine ⟨?_, ?_, ?_, ⟨_, rfl, by decide⟩⟩
  · intro rows limit
    exact ⟨each_marketCapCallback rows limit, each_volumeCallback rows limit,
      length_filterMap_of_isSome _ _ marketCapEntry_isSome rows,
      length_filterMap_of_isSome _ _ volumeEntry_isSome rows⟩
  · intro env args doc n hn hl
    have hi : intOr args.limit 10 = n := by
      have : n ≠ 0 := by omega
      simp [intOr, hl, this]
    constructor
    · intro hf
      refine ⟨_, (get_market_cap_ok env args doc hf).trans (by rw [hi]), rfl, ?_⟩
      have hlen := length_take_eq_min n (by omega) (doc.rows.filterMap marketCapEntry) _
        (length_filterMap_of_isSome _ _ marketCapEntry_isSome doc.rows)
      exact ⟨hlen, by omega⟩
    · intro hf
      refine ⟨_, (get_trading_volume_ok env args doc hf).trans (by rw [hi]), rfl, ?_⟩
      have hlen := length_take_eq_min n (by omega) (doc.rows.filterMap volumeEntry) _
        (length_filterMap_of_isSome _ _ volumeEntry_isSome doc.rows)
      exact ⟨hlen, by omega⟩
  · rintro env args (h | h) <;> simp [get_market_cap, get_trading_volume, intOr, h]

/-- C4, at scenario C: `get_market_cap("kosdaq", 5)` against 8 valid rows returns
the first 5 rows, ranked 1 to 5. -/
theorem ranking_is_first_limit_parsed_rows_witness :
    ∃ list, (get_market_cap (hostServing scenarioC)
        (rankingArgs (some (utf16 "kosdaq")) (some 5))).1 = .ok list ∧
      list = (scenarioC.rows.filterMap marketCapEntry).take 5 ∧
      (list.length : Int) = min 5 ((scenarioC.rows.filter (fun r => validRow r)).length : Int) ∧
      (list.length : Int) ≤ 5 :=
  (ranking_is_first_limit_parsed_rows.2.1 (hostServing scenarioC)
    (rankingArgs (some (utf16 "kosdaq")) (some 5)) scenarioC 5 (by decide) rfl).1 rfl

/-- C9 as stated fails: against a table whose two valid rows display the ranks 2
and 1 in that order, `get_market_cap` and `get_trading_volume` return the ranks
2, 1, which are not in non-decreasing order. -/
theorem ranks_not_sorted_by_extractor :
    (∃ list, (get_market_cap (hostServing descendingTable) (rankingArgs none none)).1 = .ok list ∧
      list.map (fun e => e.rank) = [.fin 2, .fin 1] ∧
      nonDecreasing (list.map (fun e => e.rank)) = false) ∧
    (∃ list, (get_trading_volume (hostServing descendingTable) (rankingArgs none none)).1 =
        .ok list ∧
      list.map (fun e => e.rank) = [.fin 2, .fin 1] ∧
      nonDecreasing (list.map (fun e => e.rank)) = false) :=
  ⟨⟨_, rfl, by decide, by decide⟩, ⟨_, rfl, by decide, by decide⟩⟩

/-- C9, amended: the ranks of the entries `get_market_cap` and `get_trading_volume`
return are the ranks the first `limit` successfully parsed rows display, read by
`parseInt`, in document order; they are in non-decreasing order whenever the ranks
displayed by the page's parsed rows are. -/
theorem ranks_follow_page_order (env : Env) (args : Args) (doc : Document) :
    (env.fetch (marketCapUrl env (textOr args.market (utf16 "kospi"))) = .ok doc →
      ∃ list, (get_market_cap env args).1 = .ok list ∧
        list.map (fun e => e.rank) =
          ((doc.rows.filter (fun r => validRow r)).map rowRank).take (intOr args.limit 10).toNat ∧
        (nonDecreasing ((doc.rows.filter (fun r => validRow r)).map rowRank) = true →
          nonDecreasing (list.map (fun e => e.rank)) = true)) ∧
    (env.fetch (volumeUrl env (textOr args.market (utf16 "kospi"))) = .ok doc →
      ∃ list, (get_trading_volume env args).1 = .ok list ∧
        list.map (fun e => e.rank) =
          ((doc.rows.filter (fun r => validRow r)).map rowRank).take (intOr args.limit 10).toNat ∧
        (nonDecreasing ((doc.rows.filter (fun r => validRow r)).map rowRank) = true →
          nonDecreasing (list.map (fun e => e.rank)) = true)) := by
  constructor
  · intro hf
    refine ⟨_, get_market_cap_ok env args doc hf, ?_, ?_⟩
    · rw [List.map_take, map_rank_marketCapEntry]
    · intro h
      rw [List.map_take, map_rank_marketCapEntry]
      exact nonDecreasing_take _ _ h
  · intro hf
    refine ⟨_, get_trading_volume_ok env args doc hf, ?_, ?_⟩
    · rw [List.map_take, map_rank_volumeEntry]
    · intro h
      rw [List.map_take, map_rank_volumeEntry]
      exact nonDecreasing_take _ _ h

/-- C9, at scenario C with limit 5: the page's ranks 1 to 8 are in order, and so
are the ranks returned. -/
theorem ranks_follow_page_order_witness :
    ∃ list, (get_market_cap (hostServing scenarioC)
        (rankingArgs (some (utf16 "kosdaq")) (some 5))).1 = .ok list ∧
      list.map (fun e => e.rank) =
        ((scenarioC.rows.filter (fun r => validRow r)).map rowRank).take
          (intOr (rankingArgs (some (utf16 "kosdaq")) (some 5)).limit 10).toNat ∧
      (nonDecreasing ((scenarioC.rows.filter (fun r => validRow r)).map rowRank) = true →
        nonDecreasing (list.map (fun e => e.rank)) = true) :=
  (ranks_follow_page_order (hostServing scenarioC)
    (rankingArgs (some (utf16 "kosdaq")) (some 5)) scenarioC).1 rfl

/-- C5 as stated fails: the price texts "12abc" and "2024.05.31 기준" are not
numeric, yet the price field is 12 and 2024, the integer `parseInt` reads at the
start of the text, not 0. -/
theorem quote_price_reads_leading_digits :
    numericText (utf16 "12abc") = false ∧
    (quoteOfDocument (pricePage "12abc") (utf16 "005930")).price = .fin 12 ∧
    (quoteOfDocument (pricePage "12abc") (utf16 "005930")).price ≠ .fin 0 ∧
    numericText (utf16 "2024.05.31 기준") = false ∧
    (quoteOfDocument (pricePage "2024.05.31 기준") (utf16 "005930")).price = .fin 2024 := by
  decide

/-- C5, amended: for every quote page, a numeric field (price, change, open, high,
low, volume) whose source fragment is absent, or whose text trimmed and without
its commas does not begin with an optionally signed decimal digit, is the integer
0; `getStockFromNaver` resolves to that record whenever the page was fetched,
whatever the markup.  Every text without a decimal digit is such a text, and every
such text is non-numeric. -/
theorem quote_fields_default_to_zero (doc : Document) (code : JSString) :
    (noLeadingInteger (doc.noToday.get? 0) = true → (quoteOfDocument doc code).price = .fin 0) ∧
    (noLeadingInteger (doc.noExday.get? 0) = true → (quoteOfDocument doc code).change = .fin 0) ∧
    (noLeadingInteger (doc.rateInfo.get? 0) = true → (quoteOfDocument doc code).open_ = .fin 0) ∧
    (noLeadingInteger (doc.rateInfo.get? 1) = true → (quoteOfDocument doc code).high = .fin 0) ∧
    (noLeadingInteger (doc.rateInfo.get? 2) = true → (quoteOfDocument doc code).low = .fin 0) ∧
    (noLeadingInteger (doc.rateInfo.get? 3) = true → (quoteOfDocument doc code).volume = .fin 0) ∧
    (∀ env : Env, env.fetch (quoteUrl code) = .ok doc →
      (getStockFromNaver env code).1 = .ok (quoteOfDocument doc code)) ∧
    (∀ t : JSString, (∀ c ∈ t, isDigit c = false) → noLeadingInteger (some t) = true) ∧
    (∀ t : JSString, noLeadingInteger (some t) = true → numericText t = false) := by
  refine ⟨?_, ?_, ?_, ?_, ?_, ?_, ?_, ?_, ?_⟩
  · intro h
    simp only [quoteOfDocument]
    exact (orZero_parseInt_of_no_integer _ (beginsWithInteger_eqText_of_absent _ _ h)).1
  · intro h
    simp only [quoteOfDocument]
    exact (orZero_parseInt_of_no_integer _ (beginsWithInteger_eqText_of_absent _ _ h)).1
  · intro h
    simp only [quoteOfDocument]
    exact (orZero_parseInt_of_no_integer _ (beginsWithInteger_eqText_of_absent _ _ h)).2
  · intro h
    simp only [quoteOfDocument]
    exact (orZero_parseInt_of_no_integer _ (beginsWithInteger_eqText_of_absent _ _ h)).2
  · intro h
    simp only [quoteOfDocument]
    exact (orZero_parseInt_of_no_integer _ (beginsWithInteger_eqText_of_absent _ _ h)).2
  · intro h
    simp only [quoteOfDocument]
    exact (orZero_parseInt_of_no_integer _ (beginsWithInteger_eqText_of_absent _ _ h)).2
  · intro env h
    unfold getStockFromNaver
    rw [h]
  · intro t ht
    exact noLeadingInteger_of_no_digit t ht
  · intro t ht
    cases hn : numericText t with
    | false => rfl
    | true =>
      have := beginsWithInteger_of_numericText t hn
      simp [noLeadingInteger, this] at ht

/-- C5, amended, at a page whose price reads "N/A" and which has no other fragment. -/
theorem quote_fields_default_to_zero_witness :
    (quoteOfDocument (pricePage "N/A") (utf16 "005930")).price = .fin 0 ∧
    (quoteOfDocument (pricePage "N/A") (utf16 "005930")).volume = .fin 0 ∧
    (getStockFromNaver (hostServing (pricePage "N/A")) (utf16 "005930")).1 =
      .ok (quoteOfDocument (pricePage "N/A") (utf16 "005930")) ∧
    numericText (utf16 "N/A") = false :=
  ⟨(quote_fields_default_to_zero (pricePage "N/A") (utf16 "005930")).1 (by decide),
   (quote_fields_default_to_zero (pricePage "N/A") (utf16 "005930")).2.2.2.2.2.1 (by decide),
   (quote_fields_default_to_zero (pricePage "N/A") (utf16 "005930")).2.2.2.2.2.2.1
     (hostServing (pricePage "N/A")) rfl,
   (quote_fields_default_to_zero (pricePage "N/A") (utf16 "005930")).2.2.2.2.2.2.2.2
     (utf16 "N/A") (by decide)⟩

/-- C6 as stated fails beyond the integers a JavaScript number holds exactly: for
the displayed price "9,007,199,254,740,993" the price field is 9007199254740992,
not the integer the text denotes. -/
theorem price_rounds_above_two_pow_53 :
    thousandsGrouped (utf16 "9,007,199,254,740,993") = true ∧
    denotedValue (utf16 "9,007,199,254,740,993") = 9007199254740993 ∧
    (quoteOfDocument (pricePage "9,007,199,254,740,993") (utf16 "005930")).price =
      .fin 9007199254740992 ∧
    (quoteOfDocument (pricePage "9,007,199,254,740,993") (utf16 "005930")).price ≠
      .fin (denotedValue (utf16 "9,007,199,254,740,993")) := by
  decide

/-- C6, amended: for every displayed price text that is a decimal digit string
grouped with thousands separators, optionally surrounded by white space, and that
denotes a value below `2 ^ 53`, the price field equals the integer the text denotes
once the commas are removed. -/
theorem price_of_grouped_digits (doc : Document) (code ws1 g ws2 : JSString)
    (h1 : ∀ c ∈ ws1, isWhiteSpace c = true) (h2 : ∀ c ∈ ws2, isWhiteSpace c = true)
    (hg : thousandsGrouped g = true) (hdoc : doc.noToday.get? 0 = some (ws1 ++ g ++ ws2))
    (hv : denotedValue g < 2 ^ 53) :
    (quoteOfDocument doc code).price = .fin (denotedValue g) :=
  price_of_digits_and_commas doc code ws1 g ws2 h1 h2 (thousandsGrouped_digitsAndCommas g hg)
    hdoc hv

/-- C6, at scenario A: the displayed price "70,000" for code `005930` gives the
price 70000. -/
theorem price_of_grouped_digits_witness :
    (quoteOfDocument (pricePage "70,000") (utf16 "005930")).price =
      .fin (denotedValue (utf16 "70,000")) ∧
    denotedValue (utf16 "70,000") = 70000 :=
  ⟨price_of_grouped_digits (pricePage "70,000") (utf16 "005930") [] (utf16 "70,000") []
    (by simp) (by simp) (by decide) (by decide) (by decide), by decide⟩

/-- C7 as stated fails: of a feed of 3 `item` nodes whose second has no `data`
attribute, `getOHLCV` returns 2 Candles; the second node is dropped. -/
theorem getOHLCV_drops_item_without_data :
    ∃ list, (getOHLCV (hostServing feedWithBareItem) (utf16 "005930") 30).1 = .ok list ∧
      list.length = 2 ∧ feedWithBareItem.items.length = 3 ∧
      list.map (fun c => c.date) = [some (utf16 "20240101"), some (utf16 "20240102")] :=
  ⟨_, rfl, by decide, by decide, by decide⟩

/-- C7, amended: `getOHLCV` returns exactly one Candle per `item` node that carries
a non-empty `data` attribute, in feed order, and skips the other `item` nodes; when
every `item` node carries one, the output has as many Candles as there are nodes
and the k-th Candle is built from the k-th node.  Every non-empty record yields a
Candle, whatever its content: each of open, high, low, close and volume whose field
is missing or does not begin (after white space) with an optionally signed decimal
digit is 0, and a field that begins with digits gives the integer read there.
Scenario D yields 3 Candles with date "20240101", open 100 and volume 500. -/
theorem getOHLCV_one_candle_per_data_item :
    (∀ (env : Env) (code : JSString) (days : Int) (doc : Document),
      env.fetch (chartUrl env code days) = .ok doc →
      (getOHLCV env code days).1 = .ok (doc.items.filterMap candleOfItem) ∧
      ((∀ it ∈ doc.items, ∃ d, it.data = some d ∧ d ≠ []) →
        (doc.items.filterMap candleOfItem).length = doc.items.length ∧
        ∀ k it, doc.items.get? k = some it →
          (doc.items.filterMap candleOfItem).get? k = some (candleOfData (it.data.getD [])))) ∧
    candleOfData (utf16 "20240101|abc") =
      { date := some (utf16 "20240101"), open_ := .fin 0, high := .fin 0, low := .fin 0,
        close := .fin 0, volume := .fin 0 } ∧
    (getOHLCV (hostServing scenarioD) (utf16 "005930") 3).1 =
      .ok (List.replicate 3
        { date := some (utf16 "20240101"), open_ := .fin 100, high := .fin 110, low := .fin 90,
          close := .fin 105, volume := .fin 500 }) ∧
    (∀ (it : Item) (data : JSString), it.data = some data → data ≠ [] →
      candleOfItem it = some (candleOfData data)) ∧
    (∀ data : JSString,
      (unreadableField ((splitPipe data).get? 1) = true → (candleOfData data).open_ = .fin 0) ∧
      (unreadableField ((splitPipe data).get? 2) = true → (candleOfData data).high = .fin 0) ∧
      (unreadableField ((splitPipe data).get? 3) = true → (candleOfData data).low = .fin 0) ∧
      (unreadableField ((splitPipe data).get? 4) = true → (candleOfData data).close = .fin 0) ∧
      (unreadableField ((splitPipe data).get? 5) = true →
        (candleOfData data).volume = .fin 0)) ∧
    (∀ t : JSString, (∀ c ∈ t, isDigit c = false) → unreadableField (some t) = true) ∧
    (candleOfData (utf16 "20240101|12abc|110|90|105|500")).open_ = .fin 12 := by
  refine ⟨?_, by decide, ?_, ?_, ?_, ?_, by decide⟩
  · intro env code days doc hf
    refine ⟨getOHLCV_ok env code days doc hf, ?_⟩
    intro hall
    rw [filterMap_candleOfItem_of_all _ hall]
    refine ⟨by simp, ?_⟩
    intro k it hk
    rw [List.get?_eq_getElem?] at hk ⊢
    rw [List.getElem?_map, hk]
    rfl
  · rw [getOHLCV_ok _ _ _ scenarioD rfl]
    have : scenarioD.items.filterMap candleOfItem = List.replicate 3
        { date := some (utf16 "20240101"), open_ := .fin 100, high := .fin 110, low := .fin 90,
          close := .fin 105, volume := .fin 500 } := by decide
    rw [this]
  · intro it data hd hne
    simp [candleOfItem, hd, hne]
  · intro data
    refine ⟨?_, ?_, ?_, ?_, ?_⟩ <;> intro h <;> simp only [candleOfData] <;>
      exact orZero_parseIntArg_of_unreadable _ h
  · intro t ht
    simp [unreadableField, beginsWithInteger_of_no_digit t ht]

/-- C7, at the feed of scenario D served for `005930`. -/
theorem getOHLCV_one_candle_per_data_item_witness :
    (getOHLCV (hostServing scenarioD) (utf16 "005930") 3).1 =
      .ok (scenarioD.items.filterMap candleOfItem) :=
  (getOHLCV_one_candle_per_data_item.1 (hostServing scenarioD) (utf16 "005930") 3 scenarioD
    rfl).1

/-- C8 as stated fails: `getOHLCV` returns, for a record that begins `2024|`, a
Candle whose date has 4 characters, and for a record that begins `20241301|`, a
Candle whose date has month 13. -/
theorem getOHLCV_dates_not_validated :
    ∃ list, (getOHLCV (hostServing feedWithOddDates) (utf16 "005930") 30).1 = .ok list ∧
      list.map (fun c => c.date) = [some (utf16 "2024"), some (utf16 "20241301")] ∧
      (utf16 "2024").length = 4 ∧ validDate (utf16 "2024") = false ∧
      validDate (utf16 "20241301") = false :=
  ⟨_, rfl, by decide, by decide, by decide, by decide⟩

/-- C8, amended: the date of every Candle `getOHLCV` returns is the first
pipe-delimited field of the node's record cut to its first 8 code units, hence at
most 8 characters long; it is exactly 8 characters with valid year, month and day
segments when the record begins with such a date followed by a pipe.  The
extractor checks neither. -/
theorem candle_date_is_truncated_first_field :
    (∀ (items : List Item) (c : Candle), c ∈ each candleCallback items [] →
      ∃ data, data ≠ [] ∧ { data := some data } ∈ items ∧
        c.date = some ((data.takeWhile (fun x => x != pipe)).take 8) ∧
        ((data.takeWhile (fun x => x != pipe)).take 8).length ≤ 8) ∧
    (∀ (date rest : JSString), validDate date = true →
      (candleOfData (date ++ pipe :: rest)).date = some date ∧ date.length = 8) := by
  constructor
  · intro items c hc
    rw [each_candleCallback, List.mem_filterMap] at hc
    obtain ⟨it, hit, hcd⟩ := hc
    unfold candleOfItem at hcd
    cases hd : it.data with
    | none => simp [hd] at hcd
    | some data =>
      by_cases hne : data = []
      · simp [hd, hne] at hcd
      · simp only [hd, hne, if_false, Option.some.injEq] at hcd
        refine ⟨data, hne, ?_, ?_, ?_⟩
        · have : it = { data := some data } := by
            cases it
            simp_all
          rw [← this]
          exact hit
        · rw [← hcd]
          exact candleOfData_date data
        · simp [List.length_take]
  · intro date rest hv
    simp only [validDate, Bool.and_eq_true, beq_iff_eq, List.all_eq_true] at hv
    obtain ⟨⟨⟨⟨⟨hlen, hdig⟩, _⟩, _⟩, _⟩, _⟩ := hv
    refine ⟨?_, hlen⟩
    rw [candleOfData_date]
    have hnp : ∀ x ∈ date, (x != pipe) = true := by
      intro x hx
      have h1 : 48 ≤ x ∧ x ≤ 57 := by simpa [isDigit] using hdig x hx
      have : x ≠ pipe := by
        unfold pipe
        omega
      simpa using this
    have htw : (date ++ pipe :: rest).takeWhile (fun x => x != pipe) = date := by
      rw [List.takeWhile_append_of_pos hnp]
      simp [List.takeWhile_cons]
    rw [htw, List.take_of_length_le (by omega)]

/-- C8, at the record of scenario D. -/
theorem candle_date_is_truncated_first_field_witness :
    (candleOfData (utf16 "20240101" ++ pipe :: utf16 "100|110|90|105|500")).date =
      some (utf16 "20240101") ∧ (utf16 "20240101").length = 8 :=
  candle_date_is_truncated_first_field.2 (utf16 "20240101") (utf16 "100|110|90|105|500")
    (by decide)

/-- C10 as stated fails on "a single line": for a tool name that holds a line feed
the handler answers with a flagged result whose text, which carries the name, is
on two lines. -/
theorem error_text_spans_lines :
    callTool (hostFailing (utf16 "timeout of 10000ms exceeded")) (utf16 "no\nsuch")
        (codeArgs (utf16 "005930")) =
      ({ content := [utf16 "❌ 오류 발생: Unknown tool: no\nsuch"], isError := true }, []) ∧
    singleLine (utf16 "❌ 오류 발생: Unknown tool: no\nsuch") = false := by
  decide

/-- C10, amended: whatever the tool name and the arguments, the handler returns a
result and never throws; an error thrown while handling the call (unknown tool
name, validation failure, fetch failure carrying the operation's domain marker,
zero candles) is returned as a result flagged `isError` whose one text is the
marker "❌ 오류 발생: " followed by the error message, on a single line whenever
the message holds no line terminator; a result produced without an error is not
flagged. -/
theorem tool_errors_are_flagged_results (env : Env) (args : Args) :
    (∀ name m urls, handlerBody env name args = (.error m, urls) →
      callTool env name args =
        ({ content := [utf16 "❌ 오류 발생: " ++ m], isError := true }, urls) ∧
      (singleLine m = true → singleLine (utf16 "❌ 오류 발생: " ++ m) = true)) ∧
    (∀ name t urls, handlerBody env name args = (.ok t, urls) →
      callTool env name args = ({ content := [t], isError := false }, urls)) ∧
    (∀ name, name ∉ toolNames →
      handlerBody env name args = (.error (utf16 "Unknown tool: " ++ name), [])) ∧
    (args.keyword = none ∨ args.keyword = some [] →
      handlerBody env (utf16 "search_stock") args =
        (.error (utf16 "검색할 종목명을 입력해주세요"), [])) ∧
    (∀ c m, args.code = some c → c.length = 6 → env.fetch (quoteUrl c) = .error m →
      handlerBody env (utf16 "get_stock_price") args =
        (.error (utf16 "네이버 금융 API 오류: " ++ m), [quoteUrl c])) ∧
    (∀ k encoded m, args.keyword = some k → k ≠ [] → env.encodeURIComponent k = .ok encoded →
      env.fetch (searchUrl encoded) = .error m →
      handlerBody env (utf16 "search_stock") args =
        (.error (utf16 "종목 검색 오류: " ++ m), [searchUrl encoded])) ∧
    (∀ c m, args.code = some c → c.length = 6 →
      env.fetch (chartUrl env c (intOr args.days 30)) = .error m →
      handlerBody env (utf16 "get_stock_chart") args =
        (.error (utf16 "차트 데이터 조회 오류: " ++ m), [chartUrl env c (intOr args.days 30)])) ∧
    (∀ m, env.fetch (marketCapUrl env (textOr args.market (utf16 "kospi"))) = .error m →
      handlerBody env (utf16 "get_market_cap") args =
        (.error (utf16 "시가총액 순위 조회 오류: " ++ m),
          [marketCapUrl env (textOr args.market (utf16 "kospi"))])) ∧
    (∀ m, env.fetch (volumeUrl env (textOr args.market (utf16 "kospi"))) = .error m →
      handlerBody env (utf16 "get_trading_volume") args =
        (.error (utf16 "거래량 순위 조회 오류: " ++ m),
          [volumeUrl env (textOr args.market (utf16 "kospi"))])) ∧
    (∀ c doc, args.code = some c → c.length = 6 →
      env.fetch (chartUrl env c (intOr args.days 30)) = .ok doc →
      doc.items.filterMap candleOfItem = [] →
      handlerBody env (utf16 "get_stock_chart") args =
        (.error (utf16 "차트 데이터를 가져올 수 없습니다"), [chartUrl env c (intOr args.days 30)])) := by
  have hcode : ∀ c : JSString, c.length = 6 → ¬ (c = [] ∨ c.length ≠ 6) := by
    intro c hc
    rintro (h0 | h0)
    · simp [h0] at hc
    · exact h0 hc
  refine ⟨?_, ?_, ?_, ?_, ?_, ?_, ?_, ?_, ?_, ?_⟩
  · intro name m urls h
    refine ⟨by simp [callTool, h], ?_⟩
    intro hm
    have hh : singleLine (utf16 "❌ 오류 발생: ") = true := by decide
    simp only [singleLine, List.all_append, Bool.and_eq_true] at hh hm ⊢
    exact ⟨hh, hm⟩
  · intro name t urls h
    simp [callTool, h]
  · intro name hn
    simp only [toolNames, List.mem_cons, List.mem_singleton, List.not_mem_nil, or_false,
      not_or] at hn
    obtain ⟨h1, h2, h3, h4, h5⟩ := hn
    simp [handlerBody, h1, h2, h3, h4, h5]
  · rintro (h | h) <;> simp [handlerBody_search_stock, searchStockCase, h]
  · intro c m h hc hf
    simp [handlerBody_get_stock_price, stockPriceCase, h, hcode c hc, getStockFromNaver, hf]
  · intro k encoded m h hk he hf
    simp [handlerBody_search_stock, searchStockCase, h, hk, searchStock, he, hf]
  · intro c m h hc hf
    simp [handlerBody_get_stock_chart, stockChartCase, h, hcode c hc, getOHLCV, hf]
  · intro m hf
    simp [handlerBody_get_market_cap, marketCapCase, get_market_cap, getMarketCapRanking, hf]
  · intro m hf
    simp [handlerBody_get_trading_volume, tradingVolumeCase, get_trading_volume,
      getTradingVolumeRanking, hf]
  · intro c doc h hc hf hz
    simp [handlerBody_get_stock_chart, stockChartCase, h, hcode c hc, getOHLCV, hf,
      each_candleCallback, hz]

/-- C10, at scenario E: a quote lookup whose fetch times out is answered with a
flagged result that names the quote operation. -/
theorem tool_errors_are_flagged_results_witness :
    callTool (hostFailing (utf16 "timeout of 10000ms exceeded")) (utf16 "get_stock_price")
        (codeArgs (utf16 "005930")) =
      ({ content := [utf16 "❌ 오류 발생: " ++
          (utf16 "네이버 금융 API 오류: " ++ utf16 "timeout of 10000ms exceeded")],
         isError := true }, [quoteUrl (utf16 "005930")]) :=
  ((tool_errors_are_flagged_results (hostFailing (utf16 "timeout of 10000ms exceeded"))
      (codeArgs (utf16 "005930"))).1 (utf16 "get_stock_price") _ _
    ((tool_errors_are_flagged_results (hostFailing (utf16 "timeout of 10000ms exceeded"))
      (codeArgs (utf16 "005930"))).2.2.2.2.1 (utf16 "005930")
      (utf16 "timeout of 10000ms exceeded") rfl (by decide) rfl)).1

end KoreaStock
